import Mathlib

/-!
# BattleForge STM32F103 templates: register configuration and polled UART

A shallow embedding of the four example programs
(`stm32-blink`, `stm32-freertos`, `stm32-serial-hello`, `stm32-uart-echo`).

* A 32-bit register is a natural number below `2 ^ 32`; the C operators `&`, `|`, `^`
  are `&&&`, `|||`, `^^^`, and `~x` on a non-negative `int` constant converted to
  `uint32_t` is `not32 x`.
* The straight-line register code of a start-up sequence is the list of its
  statements, each one a read-modify-write of a named register, run in order.
* The polled UART code runs against a hardware environment that fixes what every
  successive read of the status and data registers returns; the accesses are logged.
* The utility library (`utils_delay`, `utils_square`, `utils_clamp`) works on `uint32_t`
  values; a busy-wait returns how often its body ran and what its tests read.
* Gated hardware drops a write to a peripheral whose clock-enable bit is clear; the
  statement lists are run on it by `runGated`.
-/

/-! ## Device constants -/

/-- Modelled from the spec: the device header `stm32f1xx.h` that declares it is not among the
sources; the spec fixes it as one bit, placed here as the STM32F103 device header places it.
The flag is the single bit 2 of `RCC->APB2ENR` (GPIOA clock enable). -/
def RCC_APB2ENR_IOPAEN : Nat := 0x4

/-- Modelled from the spec: the device header `stm32f1xx.h` that declares it is not among the
sources; the spec fixes it as one bit, placed here as the STM32F103 device header places it.
The flag is the single bit 4 of `RCC->APB2ENR` (GPIOC clock enable), as the comment in
`stm32-blink/src/main.c` says. -/
def RCC_APB2ENR_IOPCEN : Nat := 0x10

/-- Modelled from the spec: the device header `stm32f1xx.h` that declares it is not among the
sources; the spec fixes it as one bit, placed here as the STM32F103 device header places it.
The flag is the single bit 14 of `RCC->APB2ENR` (USART1 clock enable). -/
def RCC_APB2ENR_USART1EN : Nat := 0x4000

/-- Modelled from the spec: the device header `stm32f1xx.h` that declares it is not among the
sources; the spec fixes it as one bit, placed here as the STM32F103 device header places it.
The flag is the single bit 13 of `GPIOC->ODR`. -/
def GPIO_ODR_ODR13 : Nat := 0x2000

/-- Modelled from the spec: the device header `stm32f1xx.h` that declares it is not among the
sources; the spec fixes it as one bit, placed here as the STM32F103 device header places it.
Status flag "transmit data register empty", the single bit 7 of `USART1->SR`. -/
def USART_SR_TXE : Nat := 0x80

/-- Modelled from the spec: the device header `stm32f1xx.h` that declares it is not among the
sources; the spec fixes it as one bit, placed here as the STM32F103 device header places it.
Status flag "read data register not empty", the single bit 5 of `USART1->SR`. -/
def USART_SR_RXNE : Nat := 0x20

/-- Modelled from the spec: the device header `stm32f1xx.h` that declares it is not among the
sources; the spec fixes it as one bit, placed here as the STM32F103 device header places it.
Receiver enable, the single bit 2 of `USART1->CR1`. -/
def USART_CR1_RE : Nat := 0x4

/-- Modelled from the spec: the device header `stm32f1xx.h` that declares it is not among the
sources; the spec fixes it as one bit, placed here as the STM32F103 device header places it.
Transmitter enable, the single bit 3 of `USART1->CR1`. -/
def USART_CR1_TE : Nat := 0x8

/-- Modelled from the spec: the device header `stm32f1xx.h` that declares it is not among the
sources; the spec fixes it as one bit, placed here as the STM32F103 device header places it.
USART enable, the single bit 13 of `USART1->CR1`. -/
def USART_CR1_UE : Nat := 0x2000

/-! ## Registers -/

/-- The C expression `~x` for an `int` constant `0 ≤ x < 2 ^ 31`, after the conversion to
`uint32_t` that `reg &= ~x` performs: the value `2 ^ 32 - 1 - x`. -/
def not32 (x : Nat) : Nat := 0xFFFFFFFF - x

/-- The memory-mapped registers the examples write. -/
inductive Reg where
  | RCC_APB2ENR
  | GPIOA_CRH
  | GPIOC_CRH
  | GPIOC_ODR
  | USART1_BRR
  | USART1_CR1
  deriving DecidableEq, Repr

/-- The contents of the registers the examples write. -/
structure Regs where
  RCC_APB2ENR : Nat
  GPIOA_CRH : Nat
  GPIOC_CRH : Nat
  GPIOC_ODR : Nat
  USART1_BRR : Nat
  USART1_CR1 : Nat
  deriving DecidableEq, Repr

/-- Read a register. -/
def Regs.read (r : Regs) : Reg → Nat
  | .RCC_APB2ENR => r.RCC_APB2ENR
  | .GPIOA_CRH => r.GPIOA_CRH
  | .GPIOC_CRH => r.GPIOC_CRH
  | .GPIOC_ODR => r.GPIOC_ODR
  | .USART1_BRR => r.USART1_BRR
  | .USART1_CR1 => r.USART1_CR1

/-- Write a register. -/
def Regs.write (r : Regs) : Reg → Nat → Regs
  | .RCC_APB2ENR, v => { r with RCC_APB2ENR := v }
  | .GPIOA_CRH, v => { r with GPIOA_CRH := v }
  | .GPIOC_CRH, v => { r with GPIOC_CRH := v }
  | .GPIOC_ODR, v => { r with GPIOC_ODR := v }
  | .USART1_BRR, v => { r with USART1_BRR := v }
  | .USART1_CR1, v => { r with USART1_CR1 := v }

/-- One register statement of the source: `reg = upd(reg)`. For `reg |= m` the update is
`fun v => v ||| m`, for `reg &= m` it is `fun v => v &&& m`, for `reg ^= m` it is
`fun v => v ^^^ m`, and for a plain store `reg = k` it is `fun _ => k`. -/
structure Stmt where
  reg : Reg
  upd : Nat → Nat

/-- Execute one register statement. -/
def Stmt.exec (s : Stmt) (r : Regs) : Regs :=
  r.write s.reg (s.upd (r.read s.reg))

/-- Execute register statements in program order. -/
def run : List Stmt → Regs → Regs
  | [], r => r
  | s :: rest, r => run rest (s.exec r)

/-- The 4-bit configuration field of pin `pin` (0..15) as read from the mode register that
holds it: bits `4 * (pin % 8) .. 4 * (pin % 8) + 3`. -/
def pinField (reg pin : Nat) : Nat := (reg >>> (4 * (pin % 8))) &&& 0xF

namespace Blink

/-- The clock-enable statement of `main` (`stm32-blink/src/main.c`). -/
def clock_stmts : List Stmt :=
  [ ⟨.RCC_APB2ENR, fun v => v ||| RCC_APB2ENR_IOPCEN⟩ ]  -- RCC->APB2ENR |= RCC_APB2ENR_IOPCEN;

/-- The two statements of `main` that configure PC13 (`stm32-blink/src/main.c`). -/
def pc13_stmts : List Stmt :=
  [ ⟨.GPIOC_CRH, fun v => v &&& not32 (0xF <<< 20)⟩,     -- GPIOC->CRH &= ~(0xF << 20);
    ⟨.GPIOC_CRH, fun v => v ||| (0x2 <<< 20)⟩ ]          -- GPIOC->CRH |= (0x2 << 20);

/-- The register statements of `main` before its loop (`stm32-blink/src/main.c`, 18-28). -/
def main_startup_stmts : List Stmt := clock_stmts ++ pc13_stmts

/-- The part of `main` before `while (1)`. -/
def main_startup (r : Regs) : Regs := run main_startup_stmts r

/-- The register statement of one pass of the `while (1)` body of `main`; the call
`utils_delay(100000)` that follows it touches no register. -/
def main_loop_stmts : List Stmt :=
  [ ⟨.GPIOC_ODR, fun v => v ^^^ GPIO_ODR_ODR13⟩ ]        -- GPIOC->ODR ^= GPIO_ODR_ODR13;

/-- The first `iters` passes of the `while (1)` loop of `main`. -/
def main_loop : Nat → Regs → Regs
  | 0, r => r
  | iters + 1, r => main_loop iters (run main_loop_stmts r)

end Blink

namespace FreeRTOS

/-- The clock-enable statement of `main` (`stm32-freertos/src/main.c`). -/
def clock_stmts : List Stmt :=
  [ ⟨.RCC_APB2ENR, fun v => v ||| RCC_APB2ENR_IOPCEN⟩ ]  -- RCC->APB2ENR |= RCC_APB2ENR_IOPCEN;

/-- The two statements of `main` that configure PC13 (`stm32-freertos/src/main.c`). -/
def pc13_stmts : List Stmt :=
  [ ⟨.GPIOC_CRH, fun v => v &&& not32 (0xF <<< 20)⟩,     -- GPIOC->CRH &= ~(0xF << 20);
    ⟨.GPIOC_CRH, fun v => v ||| (0x2 <<< 20)⟩ ]          -- GPIOC->CRH |= (0x2 << 20);

/-- The register statements of `main` before the tasks are created
(`stm32-freertos/src/main.c`, 40-44). -/
def main_startup_stmts : List Stmt := clock_stmts ++ pc13_stmts

/-- The register part of `main`. -/
def main_startup (r : Regs) : Regs := run main_startup_stmts r

/-- The register statement of one pass of the `while (1)` body of `vTask1`; the call
`vTaskDelay` that follows it touches no register. -/
def vTask1_stmts : List Stmt :=
  [ ⟨.GPIOC_ODR, fun v => v ^^^ GPIO_ODR_ODR13⟩ ]        -- GPIOC->ODR ^= GPIO_ODR_ODR13;

/-- The first `iters` passes of the `while (1)` loop of `vTask1`. -/
def vTask1 : Nat → Regs → Regs
  | 0, r => r
  | iters + 1, r => vTask1 iters (run vTask1_stmts r)

end FreeRTOS

namespace SerialHello

/-- The clock-enable statement of `uart_init` (`stm32-serial-hello/src/main.c`). -/
def clock_stmts : List Stmt :=
  [ ⟨.RCC_APB2ENR, fun v => v ||| (RCC_APB2ENR_IOPAEN ||| RCC_APB2ENR_USART1EN)⟩ ]

/-- The two statements of `uart_init` that configure PA9, the TX pin. -/
def pa9_stmts : List Stmt :=
  [ ⟨.GPIOA_CRH, fun v => v &&& not32 (0xF <<< 4)⟩,      -- GPIOA->CRH &= ~(0xF << 4);
    ⟨.GPIOA_CRH, fun v => v ||| (0xB <<< 4)⟩ ]           -- GPIOA->CRH |= (0xB << 4);

/-- The two statements of `uart_init` that configure PA10, the RX pin. -/
def pa10_stmts : List Stmt :=
  [ ⟨.GPIOA_CRH, fun v => v &&& not32 (0xF <<< 8)⟩,      -- GPIOA->CRH &= ~(0xF << 8);
    ⟨.GPIOA_CRH, fun v => v ||| (0x4 <<< 8)⟩ ]           -- GPIOA->CRH |= (0x4 << 8);

/-- The two statements of `uart_init` that program USART1. -/
def usart_stmts : List Stmt :=
  [ ⟨.USART1_BRR, fun _ => 69⟩,                       -- USART1->BRR = 69;
    ⟨.USART1_CR1, fun _ => USART_CR1_TE ||| USART_CR1_RE ||| USART_CR1_UE⟩ ]

/-- The statements of `uart_init` in program order (`stm32-serial-hello/src/main.c`, 21-36). -/
def uart_init_stmts : List Stmt := clock_stmts ++ pa9_stmts ++ pa10_stmts ++ usart_stmts

/-- The function `uart_init`. -/
def uart_init (r : Regs) : Regs := run uart_init_stmts r

end SerialHello

namespace UartEcho

/-- The clock-enable statement of `uart_init` (`stm32-uart-echo/src/main.c`). -/
def clock_stmts : List Stmt :=
  [ ⟨.RCC_APB2ENR, fun v => v ||| (RCC_APB2ENR_IOPAEN ||| RCC_APB2ENR_USART1EN)⟩ ]

/-- The two statements of `uart_init` that configure PA9, the TX pin. -/
def pa9_stmts : List Stmt :=
  [ ⟨.GPIOA_CRH, fun v => v &&& not32 (0xF <<< 4)⟩,      -- GPIOA->CRH &= ~(0xF << 4);
    ⟨.GPIOA_CRH, fun v => v ||| (0xB <<< 4)⟩ ]           -- GPIOA->CRH |= (0xB << 4);

/-- The two statements of `uart_init` that configure PA10, the RX pin. -/
def pa10_stmts : List Stmt :=
  [ ⟨.GPIOA_CRH, fun v => v &&& not32 (0xF <<< 8)⟩,      -- GPIOA->CRH &= ~(0xF << 8);
    ⟨.GPIOA_CRH, fun v => v ||| (0x4 <<< 8)⟩ ]           -- GPIOA->CRH |= (0x4 << 8);

/-- The two statements of `uart_init` that program USART1. -/
def usart_stmts : List Stmt :=
  [ ⟨.USART1_BRR, fun _ => 0x45⟩,                       -- USART1->BRR = 0x45;
    ⟨.USART1_CR1, fun _ => USART_CR1_TE ||| USART_CR1_RE ||| USART_CR1_UE⟩ ]

/-- The statements of `uart_init` in program order (`stm32-uart-echo/src/main.c`, 16-32). -/
def uart_init_stmts : List Stmt := clock_stmts ++ pa9_stmts ++ pa10_stmts ++ usart_stmts

/-- The function `uart_init`. -/
def uart_init (r : Regs) : Regs := run uart_init_stmts r

end UartEcho

/-! ## Polled UART -/

/-- One access of the program to a USART1 register. -/
inductive Event where
  | readSR (v : Nat)     -- a read of USART1->SR that returned v
  | writeDR (v : Nat)    -- a write of v to USART1->DR
  | readDR (v : Nat)     -- a read of USART1->DR that returned v
  deriving DecidableEq, Repr

/-- The hardware side of USART1: `sr k` is what the `k`-th read of the status register
returns and `dr k` what the `k`-th read of the data register returns (counting from 0). -/
structure Hw where
  sr : Nat → Nat
  dr : Nat → Nat

/-- The program side of USART1: how many reads of SR and of DR have been made, and the
accesses made so far, oldest first. -/
structure Uart where
  polls : Nat
  rx : Nat
  log : List Event
  deriving DecidableEq, Repr

/-- The bytes written to the data register, in order: the transmitted stream. -/
def tx : List Event → List Nat
  | [] => []
  | .writeDR v :: rest => v :: tx rest
  | _ :: rest => tx rest

/-- The number of reads of the status register in a log. -/
def srReads : List Event → Nat
  | [] => 0
  | .readSR _ :: rest => srReads rest + 1
  | _ :: rest => srReads rest

/-- The bytes of a C string literal in memory: its characters, then the terminator. -/
def cstr (s : String) : List Nat := s.toList.map Char.toNat ++ [0]

/-- The status register reports "transmit data register empty" again and again: after every
read there is a later read with TXE set. -/
def TxLive (hw : Hw) : Prop := ∀ k, ∃ j, k ≤ j ∧ hw.sr j &&& USART_SR_TXE ≠ 0

/-- The status register reports "read data register not empty" again and again. -/
def RxLive (hw : Hw) : Prop := ∀ k, ∃ j, k ≤ j ∧ hw.sr j &&& USART_SR_RXNE ≠ 0

/-- Every line feed (10) of a byte stream is immediately preceded by a carriage return
(13); `prev` is the byte before the stream, if any. -/
def crlfFrom : Option Nat → List Nat → Bool
  | _, [] => true
  | prev, c :: rest => (c != 10 || prev == some 13) && crlfFrom (some c) rest

/-- Every line feed of a byte stream is immediately preceded by a carriage return. -/
def crlfOnly (s : List Nat) : Bool := crlfFrom none s

namespace SerialHello

/-- The function `uart_putc`. `fuel` bounds the number of passes of the polling loop;
`none` means that the loop was still waiting when the fuel ran out. A `char` is a byte
(unsigned on the target), so the value stored in the data register is the byte itself.
The loop is `while (!(USART1->SR & USART_SR_TXE));`, followed by `USART1->DR = c;`. -/
def uart_putc (hw : Hw) : Nat → Uart → Nat → Option Uart
  | 0, _, _ => none
  | fuel + 1, st, c =>
    let v := hw.sr st.polls
    let st1 : Uart := { st with polls := st.polls + 1, log := st.log ++ [.readSR v] }
    if v &&& USART_SR_TXE = 0 then uart_putc hw fuel st1 c
    else some { st1 with log := st1.log ++ [.writeDR c] }

/-- The function `uart_puts`. The argument is the memory from `str` on; the loop stops at
the first zero byte, and `none` also stands for running off the memory without meeting one.
`fuel` is the fuel of each call of `uart_putc`. -/
def uart_puts (hw : Hw) (fuel : Nat) : Uart → List Nat → Option Uart
  | _, [] => none
  | st, c :: rest =>
    if c = 0 then some st                                 -- while (*str)
    else
      (if c = 10                                          -- if (*str == '\n')
        then uart_putc hw fuel st 13                      --   uart_putc('\r');
        else some st).bind fun st1 =>
        (uart_putc hw fuel st1 c).bind fun st2 =>          -- uart_putc(*str++);
          uart_puts hw fuel st2 rest

/-- The loop `do { buf[i--] = '0' + (n % 10); n /= 10; } while (n > 0 && i >= 0);` of
`main`, from the buffer, cursor and number at its entry to those at its exit. The stored
value is converted to `char`, hence taken modulo 256. The cursor is not negative when a
byte is stored (it starts at 10 and the loop goes on only while it is at least 0), so
`i.toNat` is the index written. -/
def decimal_loop (buf : List Nat) (i : Int) (n : Nat) : List Nat × Int × Nat :=
  let buf1 := buf.set i.toNat ((48 + n % 10) % 256)
  let i1 := i - 1
  let n1 := n / 10
  if n1 > 0 ∧ i1 ≥ 0 then decimal_loop buf1 i1 n1 else (buf1, i1, n1)
termination_by n
decreasing_by omega

/-- Lines 70-78 of `main`: print the counter value `n` in decimal. `buf0` is what the
12 bytes of `buf` hold when the block is entered. -/
def print_counter (hw : Hw) (fuel : Nat) (st : Uart) (buf0 : List Nat) (n : Nat) :
    Option Uart :=
  let buf := buf0.set 11 0                                -- buf[11] = '\0';
  let res := decimal_loop buf 10 n                        -- int i = 10; do ... while
  uart_puts hw fuel st (res.1.drop (res.2.1 + 1).toNat)   -- uart_puts(&buf[i + 1]);

end SerialHello

namespace UartEcho

/-- The function `uart_send_char`: `while (!(USART1->SR & USART_SR_TXE));` followed by
`USART1->DR = c;`. `fuel` bounds the number of passes of the polling loop. -/
def uart_send_char (hw : Hw) : Nat → Uart → Nat → Option Uart
  | 0, _, _ => none
  | fuel + 1, st, c =>
    let v := hw.sr st.polls
    let st1 : Uart := { st with polls := st.polls + 1, log := st.log ++ [.readSR v] }
    if v &&& USART_SR_TXE = 0 then uart_send_char hw fuel st1 c
    else some { st1 with log := st1.log ++ [.writeDR c] }

/-- The function `uart_recv_char`: `while (!(USART1->SR & USART_SR_RXNE));` followed by
`return USART1->DR;`, the value read being converted to `char`. -/
def uart_recv_char (hw : Hw) : Nat → Uart → Option (Nat × Uart)
  | 0, _ => none
  | fuel + 1, st =>
    let v := hw.sr st.polls
    let st1 : Uart := { st with polls := st.polls + 1, log := st.log ++ [.readSR v] }
    if v &&& USART_SR_RXNE = 0 then uart_recv_char hw fuel st1
    else
      let d := hw.dr st1.rx
      some (d % 256, { st1 with rx := st1.rx + 1, log := st1.log ++ [.readDR d] })

/-- The function `uart_send_string`. The argument is the memory from `str` on; `none` also
stands for running off the memory without meeting a zero byte. -/
def uart_send_string (hw : Hw) (fuel : Nat) : Uart → List Nat → Option Uart
  | _, [] => none
  | st, c :: rest =>
    if c = 0 then some st                                 -- while (*str)
    else
      (uart_send_char hw fuel st c).bind fun st1 =>        -- uart_send_char(*str++);
        uart_send_string hw fuel st1 rest

/-- The first banner of `main`. -/
def banner1 : List Nat := cstr "STM32F103C8T6 UART Echo Ready\r\n"

/-- The second banner of `main`. -/
def banner2 : List Nat := cstr "Type characters to echo them back...\r\n\n"

/-- The part of `main` before `while (1)`: `uart_init`, then the two banners. -/
def main_startup (hw : Hw) (fuel : Nat) (r : Regs) (st : Uart) : Option (Regs × Uart) :=
  let r1 := uart_init r
  (uart_send_string hw fuel st banner1).bind fun st1 =>
    (uart_send_string hw fuel st1 banner2).bind fun st2 =>
      some (r1, st2)

/-- The first `iters` passes of the `while (1)` loop of `main`. -/
def main_loop (hw : Hw) (fuel : Nat) : Nat → Uart → Option Uart
  | 0, st => some st
  | iters + 1, st =>
    (uart_recv_char hw fuel st).bind fun cs =>             -- char c = uart_recv_char();
      (uart_send_char hw fuel cs.2 cs.1).bind fun st1 =>   -- uart_send_char(c);
        (if cs.1 = 13                                      -- if (c == '\r')
          then uart_send_char hw fuel st1 10               --   uart_send_char('\n');
          else some st1).bind fun st2 =>
            main_loop hw fuel iters st2

end UartEcho

/-! ## What the specification says is transmitted -/

/-- In the spec's words: the minimal decimal representation of `n` as ASCII bytes, most
significant digit first, no leading zero, and the single byte 48 for zero. -/
def decimalBytes (n : Nat) : List Nat :=
  if n = 0 then [48] else ((Nat.digits 10 n).reverse).map fun d => 48 + d

/-- In the spec's words: the bytes of `s` in order, a carriage return (13) sent
immediately before every line feed (10). -/
def crlfExpand : List Nat → List Nat
  | [] => []
  | c :: rest => (if c = 10 then [13, 10] else [c]) ++ crlfExpand rest

/-- In the spec's words: the received bytes in order, a line feed (10) appended after
every received carriage return (13). -/
def echoed : List Nat → List Nat
  | [] => []
  | c :: rest => (if c = 13 then [13, 10] else [c]) ++ echoed rest

/-- The log of a polling wait at state `st` that sees the flag on its read number `N + 1`:
the `N + 1` reads of the status register, in order. -/
def pollLog (hw : Hw) (st : Uart) (N : Nat) : List Event :=
  (List.range (N + 1)).map fun j => Event.readSR (hw.sr (st.polls + j))

/-! ## Sample inputs -/

/-- A register state with every bit of every register set. -/
def allOnes : Regs :=
  { RCC_APB2ENR := 0xFFFFFFFF, GPIOA_CRH := 0xFFFFFFFF, GPIOC_CRH := 0xFFFFFFFF,
    GPIOC_ODR := 0xFFFFFFFF, USART1_BRR := 0xFFFFFFFF, USART1_CR1 := 0xFFFFFFFF }

/-- A USART whose status register always reads 0xC0 (TXE and TC set, its reset value):
the transmitter is ready at every poll. -/
def hwReady : Hw := { sr := fun _ => 0xC0, dr := fun _ => 0 }

/-- A USART whose status register reads TXE and RXNE set on every third read only, and
whose data register delivers the bytes 13, 14, 15, ... (the first one a carriage return). -/
def hwSlow : Hw := { sr := fun k => if k % 3 = 2 then 0xE0 else 0, dr := fun k => 13 + k }

/-- The USART state before any access. -/
def uart0 : Uart := { polls := 0, rx := 0, log := [] }

/-! ## Utility library (`stm32-blink/libs/utils.c`) and busy-wait loops -/

/-- What a busy-wait loop has done when it ends: the value left in the counter variable, the
number of times the body (one `nop`) ran, and the values that the successive loop tests
`count--` read, oldest first. -/
structure DelayRun where
  count : Nat
  nops : Nat
  tests : List Nat
  deriving DecidableEq, Repr

/-- The loop `while (count--) { __asm__("nop"); }` of `utils_delay`, from the counter value
`count`, with `nops` passes made and `tests` read so far. The test reads the counter and
then decrements it: reading 0 ends the loop and leaves the unsigned counter wrapped to
`2 ^ 32 - 1`; reading `c + 1` stores `c` and runs the body. -/
def utils_delay_loop : Nat → Nat → List Nat → DelayRun
  | 0, nops, tests => { count := 0xFFFFFFFF, nops := nops, tests := tests ++ [0] }
  | c + 1, nops, tests => utils_delay_loop c (nops + 1) (tests ++ [c + 1])

/-- The function `utils_delay`. -/
def utils_delay (count : Nat) : DelayRun := utils_delay_loop count 0 []

/-- The function `utils_square`: `return x * x;` in `uint32_t` arithmetic. -/
def utils_square (x : Nat) : Nat := (x * x) % 2 ^ 32

/-- The function `utils_clamp`. -/
def utils_clamp (value min max : Nat) : Nat :=
  if value < min then min             -- if (value < min) return min;
  else if value > max then max        -- if (value > max) return max;
  else value                          -- return value;

namespace SerialHello

/-- The loop `while (count--) __asm__("nop");` of `delay`, from the counter value `count`,
with `nops` passes made and `tests` read so far. -/
def delay_loop : Nat → Nat → List Nat → DelayRun
  | 0, nops, tests => { count := 0xFFFFFFFF, nops := nops, tests := tests ++ [0] }
  | c + 1, nops, tests => delay_loop c (nops + 1) (tests ++ [c + 1])

/-- The function `delay`. -/
def delay (count : Nat) : DelayRun := delay_loop count 0 []

/-- The loop of `decimal_loop` once more, keeping in `writes` the indices `i` of the stores
`buf[i--] = ...` in the order in which they are made. -/
def decimal_loop_log (buf : List Nat) (i : Int) (n : Nat) (writes : List Int) :
    (List Nat × Int × Nat) × List Int :=
  let writes1 := writes ++ [i]
  let buf1 := buf.set i.toNat ((48 + n % 10) % 256)
  let i1 := i - 1
  let n1 := n / 10
  if n1 > 0 ∧ i1 ≥ 0 then decimal_loop_log buf1 i1 n1 writes1 else ((buf1, i1, n1), writes1)
termination_by n
decreasing_by omega

end SerialHello

/-! ## Clock gating -/

/-- The register model of the spec (4.1 and glossary): a peripheral responds to writes only
while its clock is enabled. `gate reg` is the enable bit of `RCC->APB2ENR` that clocks the
peripheral of `reg`; the clock controller itself is always clocked. -/
def gate : Reg → Option Nat
  | .RCC_APB2ENR => none
  | .GPIOA_CRH => some RCC_APB2ENR_IOPAEN
  | .GPIOC_CRH => some RCC_APB2ENR_IOPCEN
  | .GPIOC_ODR => some RCC_APB2ENR_IOPCEN
  | .USART1_BRR => some RCC_APB2ENR_USART1EN
  | .USART1_CR1 => some RCC_APB2ENR_USART1EN

/-- Execute one register statement on gated hardware: the write is dropped when the clock
bit of the peripheral is clear. -/
def Stmt.execGated (s : Stmt) (r : Regs) : Regs :=
  match gate s.reg with
  | none => s.exec r
  | some m => if r.RCC_APB2ENR &&& m = 0 then r else s.exec r

/-- Execute register statements in program order on gated hardware. -/
def runGated : List Stmt → Regs → Regs
  | [], r => r
  | s :: rest, r => runGated rest (s.execGated r)

/-- In a statement list, every write to a register of a gated peripheral comes after a
statement on `RCC->APB2ENR` that leaves the clock bit of that peripheral set whatever the
register held. -/
def clockPrecedes (ss : List Stmt) : Prop :=
  ∀ (j : Nat) (s : Stmt) (m : Nat), ss[j]? = some s → gate s.reg = some m →
    ∃ (i : Nat) (c : Stmt),
      i < j ∧ ss[i]? = some c ∧ c.reg = Reg.RCC_APB2ENR ∧ ∀ v, c.upd v &&& m = m

/-- A register state with every bit of every register clear: all clocks disabled. -/
def allZero : Regs :=
  { RCC_APB2ENR := 0, GPIOA_CRH := 0, GPIOC_CRH := 0, GPIOC_ODR := 0, USART1_BRR := 0,
    USART1_CR1 := 0 }

/-! ## Bit-level helper lemmas -/

theorem testBit_of_ge32 {x i : Nat} (hx : x < 2 ^ 32) (hi : 32 ≤ i) : x.testBit i = false :=
  Nat.testBit_lt_two_pow (lt_of_lt_of_le hx (Nat.pow_le_pow_right (by norm_num) hi))

theorem pinField_congr (a b pin : Nat)
    (h : ∀ i, 4 * (pin % 8) ≤ i → i < 4 * (pin % 8) + 4 → a.testBit i = b.testBit i) :
    pinField a pin = pinField b pin := by
  apply Nat.eq_of_testBit_eq
  intro j
  simp only [pinField, Nat.testBit_and, Nat.testBit_shiftRight]
  by_cases hj : j < 4
  · rw [h _ (by omega) (by omega)]
  · have : Nat.testBit 0xF j = false :=
      Nat.testBit_lt_two_pow (lt_of_lt_of_le (by norm_num) (Nat.pow_le_pow_right (by norm_num) (not_lt.mp hj)))
    simp [this]

theorem pc13_bits (x i : Nat) (hx : x < 2 ^ 32) (hi : ¬ (20 ≤ i ∧ i < 24)) :
    ((x &&& not32 (0xF <<< 20)) ||| (0x2 <<< 20)).testBit i = x.testBit i := by
  simp only [Nat.testBit_or, Nat.testBit_and]
  by_cases h : i < 32
  · interval_cases i <;> simp_all [Nat.testBit, not32]
  · rw [testBit_of_ge32 hx (not_lt.mp h), testBit_of_ge32 (x := 0x2 <<< 20) (by decide) (not_lt.mp h)]
    simp

theorem pa9_bits (x i : Nat) (hx : x < 2 ^ 32) (hi : ¬ (4 ≤ i ∧ i < 8)) :
    ((x &&& not32 (0xF <<< 4)) ||| (0xB <<< 4)).testBit i = x.testBit i := by
  simp only [Nat.testBit_or, Nat.testBit_and]
  by_cases h : i < 32
  · interval_cases i <;> simp_all [Nat.testBit, not32]
  · rw [testBit_of_ge32 hx (not_lt.mp h), testBit_of_ge32 (x := 0xB <<< 4) (by decide) (not_lt.mp h)]
    simp

theorem pa10_bits (x i : Nat) (hx : x < 2 ^ 32) (hi : ¬ (8 ≤ i ∧ i < 12)) :
    ((x &&& not32 (0xF <<< 8)) ||| (0x4 <<< 8)).testBit i = x.testBit i := by
  simp only [Nat.testBit_or, Nat.testBit_and]
  by_cases h : i < 32
  · interval_cases i <;> simp_all [Nat.testBit, not32]
  · rw [testBit_of_ge32 hx (not_lt.mp h), testBit_of_ge32 (x := 0x4 <<< 8) (by decide) (not_lt.mp h)]
    simp

theorem and_or_lt (x m v : Nat) (hx : x < 2 ^ 32) (hv : v < 2 ^ 32) :
    (x &&& m) ||| v < 2 ^ 32 :=
  Nat.or_lt_two_pow (lt_of_le_of_lt Nat.and_le_left hx) hv

theorem run_append (a b : List Stmt) (r : Regs) : run (a ++ b) r = run b (run a r) := by
  induction a generalizing r with
  | nil => rfl
  | cons s rest ih => simp [run, ih]

theorem blink_pc13_crh (r : Regs) :
    (run Blink.pc13_stmts r).GPIOC_CRH = (r.GPIOC_CRH &&& not32 (0xF <<< 20)) ||| (0x2 <<< 20) := by
  simp [Blink.pc13_stmts, run, Stmt.exec, Regs.read, Regs.write]

theorem freertos_pc13_crh (r : Regs) :
    (run FreeRTOS.pc13_stmts r).GPIOC_CRH
      = (r.GPIOC_CRH &&& not32 (0xF <<< 20)) ||| (0x2 <<< 20) := by
  simp [FreeRTOS.pc13_stmts, run, Stmt.exec, Regs.read, Regs.write]

theorem hello_pa9_crh (r : Regs) :
    (run SerialHello.pa9_stmts r).GPIOA_CRH = (r.GPIOA_CRH &&& not32 (0xF <<< 4)) ||| (0xB <<< 4) := by
  simp [SerialHello.pa9_stmts, run, Stmt.exec, Regs.read, Regs.write]

theorem hello_pa10_crh (r : Regs) :
    (run SerialHello.pa10_stmts r).GPIOA_CRH
      = (r.GPIOA_CRH &&& not32 (0xF <<< 8)) ||| (0x4 <<< 8) := by
  simp [SerialHello.pa10_stmts, run, Stmt.exec, Regs.read, Regs.write]

theorem echo_pa9_crh (r : Regs) :
    (run UartEcho.pa9_stmts r).GPIOA_CRH = (r.GPIOA_CRH &&& not32 (0xF <<< 4)) ||| (0xB <<< 4) := by
  simp [UartEcho.pa9_stmts, run, Stmt.exec, Regs.read, Regs.write]

theorem echo_pa10_crh (r : Regs) :
    (run UartEcho.pa10_stmts r).GPIOA_CRH
      = (r.GPIOA_CRH &&& not32 (0xF <<< 8)) ||| (0x4 <<< 8) := by
  simp [UartEcho.pa10_stmts, run, Stmt.exec, Regs.read, Regs.write]

theorem blink_startup_crh (r : Regs) :
    (Blink.main_startup r).GPIOC_CRH = (r.GPIOC_CRH &&& not32 (0xF <<< 20)) ||| (0x2 <<< 20) := by
  simp [Blink.main_startup, Blink.main_startup_stmts, Blink.clock_stmts, Blink.pc13_stmts, run,
    Stmt.exec, Regs.read, Regs.write]

theorem freertos_startup_crh (r : Regs) :
    (FreeRTOS.main_startup r).GPIOC_CRH
      = (r.GPIOC_CRH &&& not32 (0xF <<< 20)) ||| (0x2 <<< 20) := by
  simp [FreeRTOS.main_startup, FreeRTOS.main_startup_stmts, FreeRTOS.clock_stmts,
    FreeRTOS.pc13_stmts, run, Stmt.exec, Regs.read, Regs.write]

theorem hello_init_crh (r : Regs) :
    (SerialHello.uart_init r).GPIOA_CRH
      = ((((r.GPIOA_CRH &&& not32 (0xF <<< 4)) ||| (0xB <<< 4)) &&& not32 (0xF <<< 8))
          ||| (0x4 <<< 8)) := by
  simp [SerialHello.uart_init, SerialHello.uart_init_stmts, SerialHello.clock_stmts,
    SerialHello.pa9_stmts, SerialHello.pa10_stmts, SerialHello.usart_stmts, run, Stmt.exec,
    Regs.read, Regs.write]

theorem echo_init_crh (r : Regs) :
    (UartEcho.uart_init r).GPIOA_CRH
      = ((((r.GPIOA_CRH &&& not32 (0xF <<< 4)) ||| (0xB <<< 4)) &&& not32 (0xF <<< 8))
          ||| (0x4 <<< 8)) := by
  simp [UartEcho.uart_init, UartEcho.uart_init_stmts, UartEcho.clock_stmts,
    UartEcho.pa9_stmts, UartEcho.pa10_stmts, UartEcho.usart_stmts, run, Stmt.exec,
    Regs.read, Regs.write]

theorem init_crh_bits (x i : Nat) (hx : x < 2 ^ 32) (hi : ¬ (4 ≤ i ∧ i < 12)) :
    (((((x &&& not32 (0xF <<< 4)) ||| (0xB <<< 4)) &&& not32 (0xF <<< 8))
          ||| (0x4 <<< 8))).testBit i = x.testBit i := by
  rw [pa10_bits _ i (and_or_lt _ _ _ hx (by decide)) (by omega), pa9_bits x i hx (by omega)]

theorem init_crh_field (x pin : Nat) (hx : x < 2 ^ 32) (h8 : 8 ≤ pin) (h15 : pin ≤ 15)
    (h9 : pin ≠ 9) (h10 : pin ≠ 10) :
    pinField (((((x &&& not32 (0xF <<< 4)) ||| (0xB <<< 4)) &&& not32 (0xF <<< 8))
          ||| (0x4 <<< 8))) pin = pinField x pin := by
  apply pinField_congr
  intro i h1 h2
  exact init_crh_bits x i hx (by omega)

/-! ## Pin configuration -/

/-- Claim C1. For every 32-bit content of the mode registers GPIOA CRH and GPIOC CRH, each
clear-then-OR pin configuration of the examples (PC13 in blink and FreeRTOS, PA9 and PA10 in both `uart_init`) leaves every bit of
the mode register outside the 4-bit field of its own pin unchanged, and after the whole of `uart_init` every bit outside bits 4..11, hence the field
of each of the six pins 8, 11, 12, 13, 14, 15, holds its initial value. -/
theorem pin_config_preserves_other_fields (r : Regs)
    (hA : r.GPIOA_CRH < 2 ^ 32) (hC : r.GPIOC_CRH < 2 ^ 32) :
    (∀ i, ¬ (20 ≤ i ∧ i < 24) →
      (run Blink.pc13_stmts r).GPIOC_CRH.testBit i = r.GPIOC_CRH.testBit i) ∧
    (∀ i, ¬ (20 ≤ i ∧ i < 24) →
      (run FreeRTOS.pc13_stmts r).GPIOC_CRH.testBit i = r.GPIOC_CRH.testBit i) ∧
    (∀ i, ¬ (4 ≤ i ∧ i < 8) →
      (run SerialHello.pa9_stmts r).GPIOA_CRH.testBit i = r.GPIOA_CRH.testBit i) ∧
    (∀ i, ¬ (8 ≤ i ∧ i < 12) →
      (run SerialHello.pa10_stmts r).GPIOA_CRH.testBit i = r.GPIOA_CRH.testBit i) ∧
    (∀ i, ¬ (4 ≤ i ∧ i < 8) →
      (run UartEcho.pa9_stmts r).GPIOA_CRH.testBit i = r.GPIOA_CRH.testBit i) ∧
    (∀ i, ¬ (8 ≤ i ∧ i < 12) →
      (run UartEcho.pa10_stmts r).GPIOA_CRH.testBit i = r.GPIOA_CRH.testBit i) ∧
    (∀ i, ¬ (4 ≤ i ∧ i < 12) →
      (SerialHello.uart_init r).GPIOA_CRH.testBit i = r.GPIOA_CRH.testBit i) ∧
    (∀ i, ¬ (4 ≤ i ∧ i < 12) →
      (UartEcho.uart_init r).GPIOA_CRH.testBit i = r.GPIOA_CRH.testBit i) ∧
    (∀ pin, 8 ≤ pin → pin ≤ 15 → pin ≠ 9 → pin ≠ 10 →
      pinField (SerialHello.uart_init r).GPIOA_CRH pin = pinField r.GPIOA_CRH pin) ∧
    (∀ pin, 8 ≤ pin → pin ≤ 15 → pin ≠ 9 → pin ≠ 10 →
      pinField (UartEcho.uart_init r).GPIOA_CRH pin = pinField r.GPIOA_CRH pin) := by
  refine ⟨?_, ?_, ?_, ?_, ?_, ?_, ?_, ?_, ?_, ?_⟩
  · intro i hi; rw [blink_pc13_crh]; exact pc13_bits _ i hC hi
  · intro i hi; rw [freertos_pc13_crh]; exact pc13_bits _ i hC hi
  · intro i hi; rw [hello_pa9_crh]; exact pa9_bits _ i hA hi
  · intro i hi; rw [hello_pa10_crh]; exact pa10_bits _ i hA hi
  · intro i hi; rw [echo_pa9_crh]; exact pa9_bits _ i hA hi
  · intro i hi; rw [echo_pa10_crh]; exact pa10_bits _ i hA hi
  · intro i hi; rw [hello_init_crh]; exact init_crh_bits _ i hA hi
  · intro i hi; rw [echo_init_crh]; exact init_crh_bits _ i hA hi
  · intro pin h8 h15 h9 h10; rw [hello_init_crh]; exact init_crh_field _ pin hA h8 h15 h9 h10
  · intro pin h8 h15 h9 h10; rw [echo_init_crh]; exact init_crh_field _ pin hA h8 h15 h9 h10

/-- Witness for claim C1: from the state with every bit set, `uart_init` of the
serial-hello example leaves the field of PA13 as it was. -/
theorem pin_config_preserves_other_fields_witness :
    allOnes.GPIOA_CRH < 2 ^ 32 ∧ allOnes.GPIOC_CRH < 2 ^ 32 ∧
    pinField (SerialHello.uart_init allOnes).GPIOA_CRH 13 = pinField allOnes.GPIOA_CRH 13 :=
  ⟨by decide, by decide,
    (pin_config_preserves_other_fields allOnes (by decide) (by decide)).2.2.2.2.2.2.2.2.1 13
      (by decide) (by decide) (by decide) (by decide)⟩

theorem field_after_clear_set (x s v j : Nat)
    (hm : (not32 (0xF <<< s)).testBit (s + j) = false) :
    (((x &&& not32 (0xF <<< s)) ||| (v <<< s)) >>> s).testBit j = v.testBit j := by
  simp [Nat.testBit_shiftRight, Nat.testBit_or, Nat.testBit_and, Nat.testBit_shiftLeft, hm]

theorem pinField_eq_of_bits (a v pin : Nat) (hv : v < 16)
    (h : ∀ j, j < 4 → (a >>> (4 * (pin % 8))).testBit j = v.testBit j) :
    pinField a pin = v := by
  apply Nat.eq_of_testBit_eq
  intro j
  simp only [pinField, Nat.testBit_and]
  by_cases hj : j < 4
  · rw [h j hj]
    have : Nat.testBit 0xF j = true := by interval_cases j <;> decide
    simp [this]
  · have h15 : Nat.testBit 0xF j = false :=
      Nat.testBit_lt_two_pow (lt_of_lt_of_le (by norm_num) (Nat.pow_le_pow_right (by norm_num) (not_lt.mp hj)))
    have hvj : v.testBit j = false :=
      Nat.testBit_lt_two_pow (lt_of_lt_of_le (show v < 2 ^ 4 from hv)
        (Nat.pow_le_pow_right (by norm_num) (not_lt.mp hj)))
    simp [h15, hvj]

theorem pc13_field (x : Nat) :
    pinField ((x &&& not32 (0xF <<< 20)) ||| (0x2 <<< 20)) 13 = 0x2 := by
  apply pinField_eq_of_bits _ _ _ (by decide)
  intro j hj
  exact field_after_clear_set x 20 2 j (by interval_cases j <;> decide)

theorem pa9_field (x : Nat) :
    pinField ((((x &&& not32 (0xF <<< 4)) ||| (0xB <<< 4)) &&& not32 (0xF <<< 8))
          ||| (0x4 <<< 8)) 9 = 0xB := by
  apply pinField_eq_of_bits _ _ _ (by decide)
  intro j hj
  simp only [Nat.testBit_shiftRight, Nat.testBit_or, Nat.testBit_and]
  interval_cases j <;> simp [Nat.testBit, not32]

theorem pa10_field (x : Nat) :
    pinField ((((x &&& not32 (0xF <<< 4)) ||| (0xB <<< 4)) &&& not32 (0xF <<< 8))
          ||| (0x4 <<< 8)) 10 = 0x4 := by
  apply pinField_eq_of_bits _ _ _ (by decide)
  intro j hj
  exact field_after_clear_set _ 8 4 j (by interval_cases j <;> decide)

/-- Claim C2. Whatever the registers held before, after the start-up code of blink and of
FreeRTOS the field of PC13 (bits 20..23 of GPIOC CRH, offset `4 * (13 % 8)`) reads 0x2,
and after `uart_init` of either UART example the field of PA9 (bits 4..7 of GPIOA CRH)
reads 0xB and the field of PA10 (bits 8..11) reads 0x4. -/
theorem pin_config_reads_back (r : Regs) :
    pinField (Blink.main_startup r).GPIOC_CRH 13 = 0x2 ∧
    pinField (FreeRTOS.main_startup r).GPIOC_CRH 13 = 0x2 ∧
    pinField (SerialHello.uart_init r).GPIOA_CRH 9 = 0xB ∧
    pinField (SerialHello.uart_init r).GPIOA_CRH 10 = 0x4 ∧
    pinField (UartEcho.uart_init r).GPIOA_CRH 9 = 0xB ∧
    pinField (UartEcho.uart_init r).GPIOA_CRH 10 = 0x4 ∧
    (∀ reg, pinField reg 13 = (reg >>> 20) &&& 0xF) ∧
    (∀ reg, pinField reg 9 = (reg >>> 4) &&& 0xF) ∧
    (∀ reg, pinField reg 10 = (reg >>> 8) &&& 0xF) := by
  refine ⟨?_, ?_, ?_, ?_, ?_, ?_, fun _ => rfl, fun _ => rfl, fun _ => rfl⟩
  · rw [blink_startup_crh]; exact pc13_field _
  · rw [freertos_startup_crh]; exact pc13_field _
  · rw [hello_init_crh]; exact pa9_field _
  · rw [hello_init_crh]; exact pa10_field _
  · rw [echo_init_crh]; exact pa9_field _
  · rw [echo_init_crh]; exact pa10_field _

/-! ## Output toggle -/

theorem xor_odr13_bit13 (x : Nat) : (x ^^^ GPIO_ODR_ODR13).testBit 13 = !x.testBit 13 := by
  have h : GPIO_ODR_ODR13 = 2 ^ 13 := by decide
  rw [Nat.testBit_xor, h, Nat.testBit_two_pow]
  cases x.testBit 13 <;> simp

theorem xor_odr13_other (x i : Nat) (hi : i ≠ 13) :
    (x ^^^ GPIO_ODR_ODR13).testBit i = x.testBit i := by
  have h : GPIO_ODR_ODR13 = 2 ^ 13 := by decide
  rw [Nat.testBit_xor, h, Nat.testBit_two_pow]
  simp [Ne.symm hi]

theorem xor_odr13_twice (x : Nat) : (x ^^^ GPIO_ODR_ODR13) ^^^ GPIO_ODR_ODR13 = x := by
  rw [Nat.xor_assoc, Nat.xor_self, Nat.xor_zero]

/-- Claim C6. For every register state, one pass of the blink loop (and of `vTask1`)
flips bit 13 of GPIOC ODR and leaves every other bit of it unchanged, and two consecutive
passes return the registers, ODR included, to exactly their original values. -/
theorem toggle_flips_bit13_involution (r : Regs) :
    ((Blink.main_loop 1 r).GPIOC_ODR.testBit 13 = !r.GPIOC_ODR.testBit 13) ∧
    (∀ i, i ≠ 13 → (Blink.main_loop 1 r).GPIOC_ODR.testBit i = r.GPIOC_ODR.testBit i) ∧
    Blink.main_loop 2 r = r ∧
    ((FreeRTOS.vTask1 1 r).GPIOC_ODR.testBit 13 = !r.GPIOC_ODR.testBit 13) ∧
    (∀ i, i ≠ 13 → (FreeRTOS.vTask1 1 r).GPIOC_ODR.testBit i = r.GPIOC_ODR.testBit i) ∧
    FreeRTOS.vTask1 2 r = r := by
  have hb : (Blink.main_loop 1 r).GPIOC_ODR = r.GPIOC_ODR ^^^ GPIO_ODR_ODR13 := by
    simp [Blink.main_loop, Blink.main_loop_stmts, run, Stmt.exec, Regs.read, Regs.write]
  have hf : (FreeRTOS.vTask1 1 r).GPIOC_ODR = r.GPIOC_ODR ^^^ GPIO_ODR_ODR13 := by
    simp [FreeRTOS.vTask1, FreeRTOS.vTask1_stmts, run, Stmt.exec, Regs.read, Regs.write]
  refine ⟨?_, ?_, ?_, ?_, ?_, ?_⟩
  · rw [hb]; exact xor_odr13_bit13 _
  · intro i hi; rw [hb]; exact xor_odr13_other _ i hi
  · simp [Blink.main_loop, Blink.main_loop_stmts, run, Stmt.exec, Regs.read, Regs.write,
      xor_odr13_twice]
  · rw [hf]; exact xor_odr13_bit13 _
  · intro i hi; rw [hf]; exact xor_odr13_other _ i hi
  · simp [FreeRTOS.vTask1, FreeRTOS.vTask1_stmts, run, Stmt.exec, Regs.read, Regs.write,
      xor_odr13_twice]

/-! ## Clock enable -/

theorem or_keeps_set_bits (x m i : Nat) (h : x.testBit i = true) : (x ||| m).testBit i = true := by
  simp [Nat.testBit_or, h]

theorem or_iopcen_other (x i : Nat) (hi : i ≠ 4) :
    (x ||| RCC_APB2ENR_IOPCEN).testBit i = x.testBit i := by
  have h : RCC_APB2ENR_IOPCEN = 2 ^ 4 := by decide
  rw [Nat.testBit_or, h, Nat.testBit_two_pow]
  simp [Ne.symm hi]

theorem or_uart_clocks_other (x i : Nat) (h2 : i ≠ 2) (h14 : i ≠ 14) :
    (x ||| (RCC_APB2ENR_IOPAEN ||| RCC_APB2ENR_USART1EN)).testBit i = x.testBit i := by
  have ha : RCC_APB2ENR_IOPAEN = 2 ^ 2 := by decide
  have hu : RCC_APB2ENR_USART1EN = 2 ^ 14 := by decide
  rw [Nat.testBit_or, Nat.testBit_or, ha, hu, Nat.testBit_two_pow, Nat.testBit_two_pow]
  simp [Ne.symm h2, Ne.symm h14]

theorem or_idem (x m : Nat) : (x ||| m) ||| m = x ||| m := by
  rw [Nat.or_assoc, Nat.or_self]

theorem or_and_mask (x m : Nat) : (x ||| m) &&& m = m := by
  apply Nat.eq_of_testBit_eq
  intro i
  simp only [Nat.testBit_and, Nat.testBit_or]
  cases x.testBit i <;> cases m.testBit i <;> rfl

/-- Claim C7. For every register state, the clock-enable statement of blink and FreeRTOS
leaves IOPCEN set in APB2ENR, and the one of either `uart_init` leaves IOPAEN and USART1EN
set; each keeps every bit that was set, changes no bit other than the named ones (bit 4,
or bits 2 and 14), and executed twice leaves the registers as executing it once does. -/
theorem clock_enable_sets_only_named_bits (r : Regs) :
    ((run Blink.clock_stmts r).RCC_APB2ENR &&& RCC_APB2ENR_IOPCEN = RCC_APB2ENR_IOPCEN ∧
      (∀ i, r.RCC_APB2ENR.testBit i = true → (run Blink.clock_stmts r).RCC_APB2ENR.testBit i = true) ∧
      (∀ i, i ≠ 4 → (run Blink.clock_stmts r).RCC_APB2ENR.testBit i = r.RCC_APB2ENR.testBit i) ∧
      run Blink.clock_stmts (run Blink.clock_stmts r) = run Blink.clock_stmts r) ∧
    ((run FreeRTOS.clock_stmts r).RCC_APB2ENR &&& RCC_APB2ENR_IOPCEN = RCC_APB2ENR_IOPCEN ∧
      (∀ i, r.RCC_APB2ENR.testBit i = true →
        (run FreeRTOS.clock_stmts r).RCC_APB2ENR.testBit i = true) ∧
      (∀ i, i ≠ 4 →
        (run FreeRTOS.clock_stmts r).RCC_APB2ENR.testBit i = r.RCC_APB2ENR.testBit i) ∧
      run FreeRTOS.clock_stmts (run FreeRTOS.clock_stmts r) = run FreeRTOS.clock_stmts r) ∧
    ((run SerialHello.clock_stmts r).RCC_APB2ENR &&& (RCC_APB2ENR_IOPAEN ||| RCC_APB2ENR_USART1EN)
        = RCC_APB2ENR_IOPAEN ||| RCC_APB2ENR_USART1EN ∧
      (∀ i, r.RCC_APB2ENR.testBit i = true →
        (run SerialHello.clock_stmts r).RCC_APB2ENR.testBit i = true) ∧
      (∀ i, i ≠ 2 → i ≠ 14 →
        (run SerialHello.clock_stmts r).RCC_APB2ENR.testBit i = r.RCC_APB2ENR.testBit i) ∧
      run SerialHello.clock_stmts (run SerialHello.clock_stmts r)
        = run SerialHello.clock_stmts r) ∧
    ((run UartEcho.clock_stmts r).RCC_APB2ENR &&& (RCC_APB2ENR_IOPAEN ||| RCC_APB2ENR_USART1EN)
        = RCC_APB2ENR_IOPAEN ||| RCC_APB2ENR_USART1EN ∧
      (∀ i, r.RCC_APB2ENR.testBit i = true →
        (run UartEcho.clock_stmts r).RCC_APB2ENR.testBit i = true) ∧
      (∀ i, i ≠ 2 → i ≠ 14 →
        (run UartEcho.clock_stmts r).RCC_APB2ENR.testBit i = r.RCC_APB2ENR.testBit i) ∧
      run UartEcho.clock_stmts (run UartEcho.clock_stmts r) = run UartEcho.clock_stmts r) := by
  have hb : run Blink.clock_stmts r
      = { r with RCC_APB2ENR := r.RCC_APB2ENR ||| RCC_APB2ENR_IOPCEN } := by
    simp [Blink.clock_stmts, run, Stmt.exec, Regs.read, Regs.write]
  have hf : run FreeRTOS.clock_stmts r
      = { r with RCC_APB2ENR := r.RCC_APB2ENR ||| RCC_APB2ENR_IOPCEN } := by
    simp [FreeRTOS.clock_stmts, run, Stmt.exec, Regs.read, Regs.write]
  have hs : run SerialHello.clock_stmts r
      = { r with RCC_APB2ENR :=
            r.RCC_APB2ENR ||| (RCC_APB2ENR_IOPAEN ||| RCC_APB2ENR_USART1EN) } := by
    simp [SerialHello.clock_stmts, run, Stmt.exec, Regs.read, Regs.write]
  have he : run UartEcho.clock_stmts r
      = { r with RCC_APB2ENR :=
            r.RCC_APB2ENR ||| (RCC_APB2ENR_IOPAEN ||| RCC_APB2ENR_USART1EN) } := by
    simp [UartEcho.clock_stmts, run, Stmt.exec, Regs.read, Regs.write]
  refine ⟨⟨?_, ?_, ?_, ?_⟩, ⟨?_, ?_, ?_, ?_⟩, ⟨?_, ?_, ?_, ?_⟩, ⟨?_, ?_, ?_, ?_⟩⟩
  · rw [hb]; exact or_and_mask _ _
  · intro i hi; rw [hb]; exact or_keeps_set_bits _ _ i hi
  · intro i hi; rw [hb]; exact or_iopcen_other _ i hi
  · rw [hb]; simp [Blink.clock_stmts, run, Stmt.exec, Regs.read, Regs.write, or_idem]
  · rw [hf]; exact or_and_mask _ _
  · intro i hi; rw [hf]; exact or_keeps_set_bits _ _ i hi
  · intro i hi; rw [hf]; exact or_iopcen_other _ i hi
  · rw [hf]; simp [FreeRTOS.clock_stmts, run, Stmt.exec, Regs.read, Regs.write, or_idem]
  · rw [hs]; exact or_and_mask _ _
  · intro i hi; rw [hs]; exact or_keeps_set_bits _ _ i hi
  · intro i h2 h14; rw [hs]; exact or_uart_clocks_other _ i h2 h14
  · rw [hs]; simp [SerialHello.clock_stmts, run, Stmt.exec, Regs.read, Regs.write, or_idem]
  · rw [he]; exact or_and_mask _ _
  · intro i hi; rw [he]; exact or_keeps_set_bits _ _ i hi
  · intro i h2 h14; rw [he]; exact or_uart_clocks_other _ i h2 h14
  · rw [he]; simp [UartEcho.clock_stmts, run, Stmt.exec, Regs.read, Regs.write, or_idem]

/-! ## Baud-rate divisor -/

/-- Claim C8. Whatever the registers held before, `uart_init` of the serial-hello example
and `uart_init` of the UART echo example leave in BRR the truncated quotient
8000000 / 115200, which is 69. -/
theorem brr_is_truncated_quotient (r : Regs) :
    (SerialHello.uart_init r).USART1_BRR = 8000000 / 115200 ∧
    (UartEcho.uart_init r).USART1_BRR = 8000000 / 115200 ∧
    (8000000 / 115200 : Nat) = 69 := by
  refine ⟨?_, ?_, by norm_num⟩
  · simp [SerialHello.uart_init, SerialHello.uart_init_stmts, SerialHello.clock_stmts,
      SerialHello.pa9_stmts, SerialHello.pa10_stmts, SerialHello.usart_stmts, run, Stmt.exec,
      Regs.read, Regs.write]
  · simp [UartEcho.uart_init, UartEcho.uart_init_stmts, UartEcho.clock_stmts,
      UartEcho.pa9_stmts, UartEcho.pa10_stmts, UartEcho.usart_stmts, run, Stmt.exec,
      Regs.read, Regs.write]

/-! ## Polled transmit and receive -/

theorem tx_append (a b : List Event) : tx (a ++ b) = tx a ++ tx b := by
  induction a with
  | nil => rfl
  | cons e rest ih => cases e <;> simp [tx, ih]

theorem srReads_append (a b : List Event) : srReads (a ++ b) = srReads a + srReads b := by
  induction a with
  | nil => simp [srReads]
  | cons e rest ih => cases e <;> simp [srReads, ih]; omega

theorem tx_pollLog (hw : Hw) (st : Uart) (N : Nat) : tx (pollLog hw st N) = [] := by
  unfold pollLog
  induction (List.range (N + 1)) with
  | nil => rfl
  | cons j rest ih => simpa [tx] using ih

theorem srReads_pollLog (hw : Hw) (st : Uart) (N : Nat) : srReads (pollLog hw st N) = N + 1 := by
  have h : ∀ l : List Nat,
      srReads (l.map fun j => Event.readSR (hw.sr (st.polls + j))) = l.length := by
    intro l
    induction l with
    | nil => rfl
    | cons j rest ih => simp [srReads, ih]
  simp [pollLog, h]

theorem pollLog_succ (hw : Hw) (st : Uart) (N : Nat) :
    pollLog hw st (N + 1)
      = Event.readSR (hw.sr st.polls)
          :: pollLog hw { st with polls := st.polls + 1,
                                  log := st.log ++ [Event.readSR (hw.sr st.polls)] } N := by
  simp only [pollLog]
  rw [List.range_succ_eq_map]
  simp [List.map_map, Function.comp_def, Nat.add_assoc, Nat.add_comm 1]

theorem uart_putc_spec (hw : Hw) (c N : Nat) : ∀ (fuel : Nat) (st : Uart),
    (∀ j, j < N → hw.sr (st.polls + j) &&& USART_SR_TXE = 0) →
    hw.sr (st.polls + N) &&& USART_SR_TXE ≠ 0 → N < fuel →
    SerialHello.uart_putc hw fuel st c
      = some { polls := st.polls + N + 1, rx := st.rx,
               log := st.log ++ pollLog hw st N ++ [Event.writeDR c] } := by
  induction N with
  | zero =>
    intro fuel st _ hset hf
    obtain ⟨f, rfl⟩ : ∃ f, fuel = f + 1 := ⟨fuel - 1, by omega⟩
    simp only [Nat.add_zero] at hset
    simp [SerialHello.uart_putc, hset, pollLog, List.range_succ]
  | succ N ih =>
    intro fuel st hclear hset hf
    obtain ⟨f, rfl⟩ : ∃ f, fuel = f + 1 := ⟨fuel - 1, by omega⟩
    have h0 : hw.sr st.polls &&& USART_SR_TXE = 0 := by simpa using hclear 0 (by omega)
    rw [SerialHello.uart_putc]
    simp only [h0, if_true]
    rw [ih f _ (fun j hj => by simpa [Nat.add_assoc, Nat.add_comm 1] using hclear (j + 1) (by omega))
      (by simpa [Nat.add_assoc, Nat.add_comm 1] using hset) (by omega)]
    rw [pollLog_succ]
    simp [Nat.add_assoc, Nat.add_comm 1]

theorem uart_putc_stuck (hw : Hw) (c : Nat) : ∀ (fuel : Nat) (st : Uart),
    (∀ j, j < fuel → hw.sr (st.polls + j) &&& USART_SR_TXE = 0) →
    SerialHello.uart_putc hw fuel st c = none := by
  intro fuel
  induction fuel with
  | zero => intro st _; rfl
  | succ f ih =>
    intro st hclear
    have h0 : hw.sr st.polls &&& USART_SR_TXE = 0 := by simpa using hclear 0 (by omega)
    rw [SerialHello.uart_putc]
    simp only [h0, if_true]
    exact ih _ (fun j hj => by simpa [Nat.add_assoc, Nat.add_comm 1] using hclear (j + 1) (by omega))

theorem uart_send_char_eq_putc (hw : Hw) (c : Nat) : ∀ (fuel : Nat) (st : Uart),
    UartEcho.uart_send_char hw fuel st c = SerialHello.uart_putc hw fuel st c := by
  intro fuel
  induction fuel with
  | zero => intro st; rfl
  | succ f ih =>
    intro st
    rw [UartEcho.uart_send_char, SerialHello.uart_putc]
    simp only [ih]

theorem tx_wait (hw : Hw) (h : TxLive hw) (k : Nat) :
    ∃ N, (∀ j, j < N → hw.sr (k + j) &&& USART_SR_TXE = 0) ∧
      hw.sr (k + N) &&& USART_SR_TXE ≠ 0 := by
  obtain ⟨j, hj, hset⟩ := h k
  have hex : ∃ n, hw.sr (k + n) &&& USART_SR_TXE ≠ 0 :=
    ⟨j - k, by rwa [Nat.add_sub_cancel' hj]⟩
  refine ⟨Nat.find hex, ?_, Nat.find_spec hex⟩
  intro i hi
  exact not_not.mp (Nat.find_min hex hi)

theorem rx_wait (hw : Hw) (h : RxLive hw) (k : Nat) :
    ∃ N, (∀ j, j < N → hw.sr (k + j) &&& USART_SR_RXNE = 0) ∧
      hw.sr (k + N) &&& USART_SR_RXNE ≠ 0 := by
  obtain ⟨j, hj, hset⟩ := h k
  have hex : ∃ n, hw.sr (k + n) &&& USART_SR_RXNE ≠ 0 :=
    ⟨j - k, by rwa [Nat.add_sub_cancel' hj]⟩
  refine ⟨Nat.find hex, ?_, Nat.find_spec hex⟩
  intro i hi
  exact not_not.mp (Nat.find_min hex hi)

theorem uart_putc_live (hw : Hw) (h : TxLive hw) (st : Uart) (c : Nat) :
    ∃ st', (∃ F, ∀ fuel, F ≤ fuel → SerialHello.uart_putc hw fuel st c = some st') ∧
      tx st'.log = tx st.log ++ [c] ∧ st'.rx = st.rx := by
  obtain ⟨N, hclear, hset⟩ := tx_wait hw h st.polls
  refine ⟨_, ⟨N + 1, fun fuel hf => uart_putc_spec hw c N fuel st hclear hset (by omega)⟩, ?_, rfl⟩
  simp [tx_append, tx_pollLog, tx]

theorem uart_puts_live (hw : Hw) (h : TxLive hw) (junk : List Nat) :
    ∀ (s : List Nat), (∀ c, c ∈ s → c ≠ 0) → ∀ st : Uart,
    ∃ st', (∃ F, ∀ fuel, F ≤ fuel →
        SerialHello.uart_puts hw fuel st (s ++ 0 :: junk) = some st') ∧
      tx st'.log = tx st.log ++ crlfExpand s ∧ st'.rx = st.rx := by
  intro s
  induction s with
  | nil =>
    intro _ st
    exact ⟨st, ⟨0, fun fuel _ => by simp [SerialHello.uart_puts]⟩, by simp [crlfExpand], rfl⟩
  | cons c rest ih =>
    intro hz st
    have hc : c ≠ 0 := hz c (List.mem_cons_self _ _)
    have hrest : ∀ d, d ∈ rest → d ≠ 0 := fun d hd => hz d (List.mem_cons_of_mem _ hd)
    by_cases h10 : c = 10
    · subst h10
      obtain ⟨st1, ⟨F1, hF1⟩, htx1, hrx1⟩ := uart_putc_live hw h st 13
      obtain ⟨st2, ⟨F2, hF2⟩, htx2, hrx2⟩ := uart_putc_live hw h st1 10
      obtain ⟨st3, ⟨F3, hF3⟩, htx3, hrx3⟩ := ih hrest st2
      refine ⟨st3, ⟨max F1 (max F2 F3), fun fuel hf => ?_⟩, ?_, by rw [hrx3, hrx2, hrx1]⟩
      · have h1 := hF1 fuel (le_trans (le_max_left _ _) hf)
        have h2 := hF2 fuel (le_trans (le_trans (le_max_left _ _) (le_max_right _ _)) hf)
        have h3 := hF3 fuel (le_trans (le_trans (le_max_right _ _) (le_max_right _ _)) hf)
        simp [SerialHello.uart_puts, h1, h2, h3]
      · rw [htx3, htx2, htx1]; simp [crlfExpand]
    · obtain ⟨st2, ⟨F2, hF2⟩, htx2, hrx2⟩ := uart_putc_live hw h st c
      obtain ⟨st3, ⟨F3, hF3⟩, htx3, hrx3⟩ := ih hrest st2
      refine ⟨st3, ⟨max F2 F3, fun fuel hf => ?_⟩, ?_, by rw [hrx3, hrx2]⟩
      · have h2 := hF2 fuel (le_trans (le_max_left _ _) hf)
        have h3 := hF3 fuel (le_trans (le_max_right _ _) hf)
        simp [SerialHello.uart_puts, hc, h10, h2, h3]
      · rw [htx3, htx2]; simp [crlfExpand, h10]

theorem uart_send_string_live (hw : Hw) (h : TxLive hw) (junk : List Nat) :
    ∀ (s : List Nat), (∀ c, c ∈ s → c ≠ 0) → ∀ st : Uart,
    ∃ st', (∃ F, ∀ fuel, F ≤ fuel →
        UartEcho.uart_send_string hw fuel st (s ++ 0 :: junk) = some st') ∧
      tx st'.log = tx st.log ++ s ∧ st'.rx = st.rx := by
  intro s
  induction s with
  | nil =>
    intro _ st
    exact ⟨st, ⟨0, fun fuel _ => by simp [UartEcho.uart_send_string]⟩, by simp, rfl⟩
  | cons c rest ih =>
    intro hz st
    have hc : c ≠ 0 := hz c (List.mem_cons_self _ _)
    have hrest : ∀ d, d ∈ rest → d ≠ 0 := fun d hd => hz d (List.mem_cons_of_mem _ hd)
    obtain ⟨st2, ⟨F2, hF2⟩, htx2, hrx2⟩ := uart_putc_live hw h st c
    obtain ⟨st3, ⟨F3, hF3⟩, htx3, hrx3⟩ := ih hrest st2
    refine ⟨st3, ⟨max F2 F3, fun fuel hf => ?_⟩, ?_, by rw [hrx3, hrx2]⟩
    · have h2 := hF2 fuel (le_trans (le_max_left _ _) hf)
      have h3 := hF3 fuel (le_trans (le_max_right _ _) hf)
      simp [UartEcho.uart_send_string, hc, uart_send_char_eq_putc, h2, h3]
    · rw [htx3, htx2]; simp

theorem crlfFrom_crlfExpand (s : List Nat) : ∀ prev, crlfFrom prev (crlfExpand s) = true := by
  induction s with
  | nil => intro prev; rfl
  | cons c rest ih =>
    intro prev
    by_cases h10 : c = 10
    · subst h10; simp [crlfExpand, crlfFrom, ih]
    · simp [crlfExpand, crlfFrom, h10, ih]

theorem crlfFrom_append (a b : List Nat) (hb : ∀ prev, crlfFrom prev b = true) :
    ∀ prev, crlfFrom prev a = true → crlfFrom prev (a ++ b) = true := by
  induction a with
  | nil => intro prev _; exact hb prev
  | cons c rest ih =>
    intro prev ha
    simp only [crlfFrom, Bool.and_eq_true] at ha
    simp only [List.cons_append, crlfFrom, Bool.and_eq_true]
    exact ⟨ha.1, ih _ ha.2⟩

theorem hwReady_txLive : TxLive hwReady :=
  fun k => ⟨k, le_refl k, show (0xC0 : Nat) &&& USART_SR_TXE ≠ 0 by decide⟩

theorem hwSlow_txLive : TxLive hwSlow := by
  intro k
  refine ⟨3 * k + 2, by omega, ?_⟩
  have h : (3 * k + 2) % 3 = 2 := by omega
  simp only [hwSlow, h, if_true]
  decide

theorem hwSlow_rxLive : RxLive hwSlow := by
  intro k
  refine ⟨3 * k + 2, by omega, ?_⟩
  have h : (3 * k + 2) % 3 = 2 := by omega
  simp only [hwSlow, h, if_true]
  decide

/-- Claim C4. Against a status register that reports TXE again and again, `uart_puts` of
the serial-hello example returns on every string `s` (bytes other than zero, then the
terminator) and has then transmitted the bytes of `s` in order, each line feed replaced by
carriage return, line feed and every other byte sent once unchanged; in what it transmits
every line feed is immediately preceded by a carriage return, and `uart_puts("a\nb")`
transmits exactly 97, 13, 10, 98. -/
theorem uart_puts_transmits_crlf (hw : Hw) (h : TxLive hw) (s junk : List Nat)
    (hz : ∀ c, c ∈ s → c ≠ 0) (st : Uart) :
    (∃ st', (∃ F, ∀ fuel, F ≤ fuel →
          SerialHello.uart_puts hw fuel st (s ++ 0 :: junk) = some st') ∧
        tx st'.log = tx st.log ++ crlfExpand s ∧
        (crlfOnly (tx st.log) = true → crlfOnly (tx st'.log) = true)) ∧
    crlfOnly (crlfExpand s) = true ∧
    (∃ st', (∃ F, ∀ fuel, F ≤ fuel →
          SerialHello.uart_puts hw fuel st (cstr "a\nb") = some st') ∧
        tx st'.log = tx st.log ++ [97, 13, 10, 98]) := by
  refine ⟨?_, crlfFrom_crlfExpand s none, ?_⟩
  · obtain ⟨st', hF, htx, -⟩ := uart_puts_live hw h junk s hz st
    refine ⟨st', hF, htx, fun hold => ?_⟩
    rw [htx]
    exact crlfFrom_append _ _ (crlfFrom_crlfExpand s) none hold
  · obtain ⟨st', hF, htx, -⟩ := uart_puts_live hw h [] [97, 10, 98] (by decide) st
    exact ⟨st', hF, by rw [htx]; rfl⟩

/-- Witness for claim C4: the theorem at the string "a\nb" on a slow transmitter. -/
theorem uart_puts_transmits_crlf_witness :
    TxLive hwSlow ∧ (∀ c, c ∈ [97, 10, 98] → c ≠ 0) ∧
    ∃ st', (∃ F, ∀ fuel, F ≤ fuel →
          SerialHello.uart_puts hwSlow fuel uart0 ([97, 10, 98] ++ 0 :: []) = some st') ∧
        tx st'.log = tx uart0.log ++ crlfExpand [97, 10, 98] :=
  ⟨hwSlow_txLive, by decide,
    let ⟨st', hF, htx, _⟩ :=
      (uart_puts_transmits_crlf hwSlow hwSlow_txLive [97, 10, 98] [] (by decide) uart0).1
    ⟨st', hF, htx⟩⟩

set_option maxRecDepth 100000 in
/-- Counterexample to claim C5: on the string "\n" `uart_send_string` of the UART echo
example transmits the single byte 10, with no carriage return before it, and the stream
that the start-up of `main` transmits has a line feed that no carriage return precedes. -/
theorem uart_send_string_sends_bare_line_feed :
    (UartEcho.uart_send_string hwReady 1 uart0 (cstr "\n")).map (fun st => tx st.log)
      = some [10] ∧
    crlfOnly [10] = false ∧
    (UartEcho.main_startup hwReady 1 allOnes uart0).map (fun p => crlfOnly (tx p.2.log))
      = some false := by
  decide

/-- Claim C5, amended. Against a status register that reports TXE again and again,
`uart_send_string` of the UART echo example returns on every string `s` and has then
transmitted exactly the bytes of `s`, in order and unchanged, with no byte inserted; the
start-up of `main` returns and has transmitted the two banners exactly as their string
literals spell them. -/
theorem uart_send_string_transmits_verbatim (hw : Hw) (h : TxLive hw) (s junk : List Nat)
    (hz : ∀ c, c ∈ s → c ≠ 0) (st : Uart) (r : Regs) :
    (∃ st', (∃ F, ∀ fuel, F ≤ fuel →
          UartEcho.uart_send_string hw fuel st (s ++ 0 :: junk) = some st') ∧
        tx st'.log = tx st.log ++ s) ∧
    (∃ st', (∃ F, ∀ fuel, F ≤ fuel →
          UartEcho.main_startup hw fuel r st = some (UartEcho.uart_init r, st')) ∧
        tx st'.log = tx st.log
          ++ "STM32F103C8T6 UART Echo Ready\r\n".toList.map Char.toNat
          ++ "Type characters to echo them back...\r\n\n".toList.map Char.toNat) := by
  constructor
  · obtain ⟨st', hF, htx, -⟩ := uart_send_string_live hw h junk s hz st
    exact ⟨st', hF, htx⟩
  · obtain ⟨st1, ⟨F1, hF1⟩, htx1, -⟩ := uart_send_string_live hw h []
      ("STM32F103C8T6 UART Echo Ready\r\n".toList.map Char.toNat) (by decide) st
    obtain ⟨st2, ⟨F2, hF2⟩, htx2, -⟩ := uart_send_string_live hw h []
      ("Type characters to echo them back...\r\n\n".toList.map Char.toNat) (by decide) st1
    refine ⟨st2, ⟨max F1 F2, fun fuel hf => ?_⟩, by rw [htx2, htx1]⟩
    have h1 := hF1 fuel (le_trans (le_max_left _ _) hf)
    have h2 := hF2 fuel (le_trans (le_max_right _ _) hf)
    have e1 : UartEcho.banner1
        = "STM32F103C8T6 UART Echo Ready\r\n".toList.map Char.toNat ++ 0 :: [] := rfl
    have e2 : UartEcho.banner2
        = "Type characters to echo them back...\r\n\n".toList.map Char.toNat ++ 0 :: [] := rfl
    simp only [UartEcho.main_startup, e1, e2, h1, h2, Option.bind_some, Option.some_bind]

/-- Witness for claim C5, amended: the theorem at the string "\n" on a slow
transmitter. -/
theorem uart_send_string_transmits_verbatim_witness :
    TxLive hwSlow ∧ (∀ c, c ∈ [10] → c ≠ 0) ∧
    ∃ st', (∃ F, ∀ fuel, F ≤ fuel →
          UartEcho.uart_send_string hwSlow fuel uart0 ([10] ++ 0 :: []) = some st') ∧
        tx st'.log = tx uart0.log ++ [10] :=
  ⟨hwSlow_txLive, by decide,
    (uart_send_string_transmits_verbatim hwSlow hwSlow_txLive [10] [] (by decide) uart0
      allOnes).1⟩

/-- Claim C9. Over a status register that reads TXE clear on the first `N` reads made from
state `st` and TXE set on the next one, `uart_putc` and `uart_send_char` return as soon as
the polling loop is allowed more than `N` passes, having made exactly `N + 1` reads of the
status register and then exactly one write to the data register, of the byte `c`, as the
last access; allowed `N` passes or fewer, the loop is still polling and nothing has been
written. -/
theorem send_byte_polls_then_writes_once (hw : Hw) (st : Uart) (c N : Nat)
    (hclear : ∀ j, j < N → hw.sr (st.polls + j) &&& USART_SR_TXE = 0)
    (hset : hw.sr (st.polls + N) &&& USART_SR_TXE ≠ 0) :
    (∀ fuel, N < fuel →
      SerialHello.uart_putc hw fuel st c
        = some { polls := st.polls + N + 1, rx := st.rx,
                 log := st.log ++ pollLog hw st N ++ [Event.writeDR c] }) ∧
    (∀ fuel, N < fuel →
      UartEcho.uart_send_char hw fuel st c
        = some { polls := st.polls + N + 1, rx := st.rx,
                 log := st.log ++ pollLog hw st N ++ [Event.writeDR c] }) ∧
    (∀ fuel, fuel ≤ N →
      SerialHello.uart_putc hw fuel st c = none ∧ UartEcho.uart_send_char hw fuel st c = none) ∧
    pollLog hw st N = (List.range (N + 1)).map (fun j => Event.readSR (hw.sr (st.polls + j))) ∧
    srReads (pollLog hw st N ++ [Event.writeDR c]) = N + 1 ∧
    tx (pollLog hw st N ++ [Event.writeDR c]) = [c] := by
  refine ⟨fun fuel hf => uart_putc_spec hw c N fuel st hclear hset hf, fun fuel hf => ?_,
    fun fuel hf => ?_, rfl, ?_, ?_⟩
  · rw [uart_send_char_eq_putc]; exact uart_putc_spec hw c N fuel st hclear hset hf
  · have hn := uart_putc_stuck hw c fuel st (fun j hj => hclear j (by omega))
    exact ⟨hn, by rw [uart_send_char_eq_putc]; exact hn⟩
  · simp [srReads_append, srReads_pollLog, srReads]
  · simp [tx_append, tx_pollLog, tx]

/-- Witness for claim C9: the slow transmitter shows TXE on its third read, so the byte 65
goes out after exactly three reads of the status register. -/
theorem send_byte_polls_then_writes_once_witness :
    (∀ j, j < 2 → hwSlow.sr (uart0.polls + j) &&& USART_SR_TXE = 0) ∧
    hwSlow.sr (uart0.polls + 2) &&& USART_SR_TXE ≠ 0 ∧
    SerialHello.uart_putc hwSlow 3 uart0 65
      = some { polls := 3, rx := 0,
               log := [Event.readSR 0, Event.readSR 0, Event.readSR 0xE0, Event.writeDR 65] } :=
  ⟨by decide, by decide,
    (send_byte_polls_then_writes_once hwSlow uart0 65 2 (by decide) (by decide)).1 3 (by decide)⟩

/-! ## Decimal conversion -/

theorem decimalBytes_lt10 (n : Nat) (h : n < 10) : decimalBytes n = [48 + n] := by
  unfold decimalBytes
  by_cases h0 : n = 0
  · simp [h0]
  · simp [h0, Nat.digits_of_lt 10 n h0 h]

theorem decimalBytes_ge10 (n : Nat) (h : 10 ≤ n) :
    decimalBytes n = decimalBytes (n / 10) ++ [48 + n % 10] := by
  have h0 : n ≠ 0 := by omega
  have h1 : n / 10 ≠ 0 := by omega
  unfold decimalBytes
  rw [if_neg h0, if_neg h1, Nat.digits_def' (by norm_num) (by omega)]
  simp

theorem decimalBytes_length_pos (n : Nat) : 1 ≤ (decimalBytes n).length := by
  by_cases h : n < 10
  · simp [decimalBytes_lt10 n h]
  · rw [decimalBytes_ge10 n (by omega)]; simp

theorem decimalBytes_length_le (k : Nat) : ∀ n, n < 10 ^ (k + 1) → (decimalBytes n).length ≤ k + 1 := by
  induction k with
  | zero => intro n h; simp [decimalBytes_lt10 n (by simpa using h)]
  | succ k ih =>
    intro n h
    by_cases h10 : n < 10
    · simp [decimalBytes_lt10 n h10]
    · rw [decimalBytes_ge10 n (by omega)]
      have : n / 10 < 10 ^ (k + 1) := by
        rw [Nat.div_lt_iff_lt_mul (by norm_num)]
        calc n < 10 ^ (k + 1 + 1) := h
          _ = 10 ^ (k + 1) * 10 := by ring
      have := ih _ this
      simp; omega


theorem set_eq_take_cons_drop_nat (buf : List Nat) (i v : Nat) (h : i < buf.length) :
    buf.set i v = buf.take i ++ v :: buf.drop (i + 1) := by
  rw [List.set_eq_take_append_cons_drop, if_pos h]

theorem decimal_loop_eq : ∀ (i : Nat) (n : Nat) (buf : List Nat), i < buf.length → n < 10 ^ (i + 1) →
    SerialHello.decimal_loop buf (i : Int) n
      = (buf.take (i + 1 - (decimalBytes n).length) ++ decimalBytes n ++ buf.drop (i + 1),
          (i : Int) - ((decimalBytes n).length : Int), 0) := by
  intro i
  induction i with
  | zero =>
    intro n buf hlen hn
    have h10 : n < 10 := by simpa using hn
    have hd : n / 10 = 0 := by omega
    have hm : (48 + n % 10) % 256 = 48 + n := by omega
    have hg : ¬ (n / 10 > 0 ∧ ((0 : Nat) : Int) - 1 ≥ 0) := by omega
    rw [SerialHello.decimal_loop, if_neg hg]
    simp only [hm, hd, decimalBytes_lt10 n h10, Int.toNat_ofNat]
    rw [set_eq_take_cons_drop_nat buf 0 _ hlen]
    simp
  | succ k ih =>
    intro n buf hlen hn
    by_cases h10 : n < 10
    · have hd : n / 10 = 0 := by omega
      have hm : (48 + n % 10) % 256 = 48 + n := by omega
      have hg : ¬ (n / 10 > 0 ∧ ((k + 1 : Nat) : Int) - 1 ≥ 0) := by omega
      rw [SerialHello.decimal_loop, if_neg hg]
      simp only [hm, hd, decimalBytes_lt10 n h10, Int.toNat_ofNat]
      rw [set_eq_take_cons_drop_nat buf (k + 1) _ hlen]
      simp
    · have hm : (48 + n % 10) % 256 = 48 + n % 10 := by omega
      have hg : n / 10 > 0 ∧ ((k + 1 : Nat) : Int) - 1 ≥ 0 := by omega
      have hi : ((k + 1 : Nat) : Int) - 1 = (k : Int) := by omega
      have hn1 : n / 10 < 10 ^ (k + 1) := by
        rw [Nat.div_lt_iff_lt_mul (by norm_num)]
        calc n < 10 ^ (k + 1 + 1) := hn
          _ = 10 ^ (k + 1) * 10 := by ring
      have hL1 := decimalBytes_length_pos (n / 10)
      have hL2 := decimalBytes_length_le k (n / 10) hn1
      rw [SerialHello.decimal_loop, if_pos hg]
      simp only [hm, hi, Int.toNat_ofNat]
      rw [ih (n / 10) _ (by rw [List.length_set]; omega) hn1, decimalBytes_ge10 n (by omega)]
      have ht : (buf.set (k + 1) (48 + n % 10)).take (k + 1 - (decimalBytes (n / 10)).length)
          = buf.take (k + 1 - (decimalBytes (n / 10)).length) :=
        List.take_set_of_lt _ _ (by omega)
      have hdr : (buf.set (k + 1) (48 + n % 10)).drop (k + 1)
          = (48 + n % 10) :: buf.drop (k + 1 + 1) := by
        rw [set_eq_take_cons_drop_nat buf (k + 1) _ hlen]
        rw [List.drop_append_of_le_length (by rw [List.length_take]; omega)]
        rw [List.drop_of_length_le (by rw [List.length_take]; omega)]
        rfl
      rw [ht, hdr]
      simp only [List.length_append, List.length_singleton, List.append_assoc,
        List.singleton_append, Prod.mk.injEq, and_true]
      refine ⟨?_, by push_cast; omega⟩
      congr 2
      omega

theorem mem_decimalBytes (n c : Nat) (h : c ∈ decimalBytes n) : 48 ≤ c ∧ c ≤ 57 := by
  unfold decimalBytes at h
  by_cases h0 : n = 0
  · simp [h0] at h; omega
  · simp only [if_neg h0, List.mem_map, List.mem_reverse] at h
    obtain ⟨d, hd, rfl⟩ := h
    have := Nat.digits_lt_base (by norm_num : 1 < 10) hd
    omega

theorem crlfExpand_eq_self (s : List Nat) (h : ∀ c, c ∈ s → c ≠ 10) : crlfExpand s = s := by
  induction s with
  | nil => rfl
  | cons c rest ih =>
    have hc : c ≠ 10 := h c (List.mem_cons_self _ _)
    simp [crlfExpand, hc, ih (fun d hd => h d (List.mem_cons_of_mem _ hd))]

theorem decimalBytes_head (n : Nat) (h0 : n ≠ 0) : (decimalBytes n).head? ≠ some 48 := by
  unfold decimalBytes
  rw [if_neg h0]
  have hne : Nat.digits 10 n ≠ [] := Nat.digits_ne_nil_iff_ne_zero.mpr h0
  have hlast := Nat.getLast_digit_ne_zero 10 h0
  rw [List.head?_map, List.head?_reverse, List.getLast?_eq_getLast _ hne]
  simp only [Option.map_some', ne_eq, Option.some.injEq]
  omega

theorem print_counter_arg (buf0 : List Nat) (hbuf : buf0.length = 12) (n : Nat) (hn : n < 2 ^ 32) :
    let res := SerialHello.decimal_loop (buf0.set 11 0) 10 n
    res.1.drop (res.2.1 + 1).toNat = decimalBytes n ++ 0 :: [] := by
  have hlen : (buf0.set 11 0).length = 12 := by rw [List.length_set]; exact hbuf
  have hn10 : n < 10 ^ (9 + 1) := lt_trans hn (by norm_num)
  have hL1 := decimalBytes_length_pos n
  have hL2 := decimalBytes_length_le 9 n hn10
  have h := decimal_loop_eq 10 n (buf0.set 11 0) (by omega) (lt_trans hn (by norm_num))
  simp only [Nat.cast_ofNat] at h
  simp only [h]
  have hidx : ((10 : Int) - ((decimalBytes n).length : Int) + 1).toNat
      = 11 - (decimalBytes n).length := by omega
  rw [hidx, List.append_assoc]
  rw [List.drop_append_of_le_length (by rw [List.length_take]; omega)]
  rw [List.drop_of_length_le (by rw [List.length_take]; omega)]
  have hd : (buf0.set 11 0).drop 11 = 0 :: [] := by
    rw [set_eq_take_cons_drop_nat buf0 11 0 (by omega)]
    rw [List.drop_append_of_le_length (by rw [List.length_take]; omega)]
    rw [List.drop_of_length_le (by rw [List.length_take]; omega)]
    rw [List.drop_of_length_le (by omega)]
    rfl
  rw [hd]
  rfl


/-- Claim C3. Against a status register that reports TXE again and again, for every 32-bit
`n` and whatever the 12 bytes of `buf` held before, the conversion block of the
serial-hello loop returns and has then transmitted exactly the minimal decimal
representation of `n`, most significant digit first, and no other byte: the digits are
bytes 48..57, there is no leading zero unless `n = 0`, and for 0, 1, 9, 10, 99, 100 and
4294967295 they are the characters of "0", "1", "9", "10", "99", "100", "4294967295". -/
theorem print_counter_transmits_decimal (hw : Hw) (h : TxLive hw) (st : Uart)
    (buf0 : List Nat) (hbuf : buf0.length = 12) (n : Nat) (hn : n < 2 ^ 32) :
    (∃ st', (∃ F, ∀ fuel, F ≤ fuel →
          SerialHello.print_counter hw fuel st buf0 n = some st') ∧
        tx st'.log = tx st.log ++ decimalBytes n) ∧
    (∀ c, c ∈ decimalBytes n → 48 ≤ c ∧ c ≤ 57) ∧
    (n ≠ 0 → (decimalBytes n).head? ≠ some 48) ∧
    Nat.ofDigits 10 ((decimalBytes n).reverse.map fun c => c - 48) = n ∧
    decimalBytes 0 = "0".toList.map Char.toNat ∧
    decimalBytes 1 = "1".toList.map Char.toNat ∧
    decimalBytes 9 = "9".toList.map Char.toNat ∧
    decimalBytes 10 = "10".toList.map Char.toNat ∧
    decimalBytes 99 = "99".toList.map Char.toNat ∧
    decimalBytes 100 = "100".toList.map Char.toNat ∧
    decimalBytes 4294967295 = "4294967295".toList.map Char.toNat := by
  refine ⟨?_, mem_decimalBytes n, decimalBytes_head n, ?_, by simp [decimalBytes],
    by simp [decimalBytes], by simp [decimalBytes], by simp [decimalBytes],
    by simp [decimalBytes], by simp [decimalBytes], by simp [decimalBytes]⟩
  · have hz : ∀ c, c ∈ decimalBytes n → c ≠ 0 := fun c hc => by
      have := mem_decimalBytes n c hc; omega
    have h10 : ∀ c, c ∈ decimalBytes n → c ≠ 10 := fun c hc => by
      have := mem_decimalBytes n c hc; omega
    obtain ⟨st', hF, htx, -⟩ := uart_puts_live hw h [] (decimalBytes n) hz st
    refine ⟨st', ?_, by rw [htx, crlfExpand_eq_self _ h10]⟩
    obtain ⟨F, hF⟩ := hF
    refine ⟨F, fun fuel hf => ?_⟩
    have harg := print_counter_arg buf0 hbuf n hn
    simp only at harg
    rw [SerialHello.print_counter]
    simp only [harg]
    exact hF fuel hf
  · unfold decimalBytes
    by_cases h0 : n = 0
    · simp [h0]
    · rw [if_neg h0]
      simp [List.map_reverse, Function.comp_def, Nat.ofDigits_digits]

/-- Witness for claim C3: the largest 32-bit value, printed through the slow transmitter
from a buffer filled with the byte 0xAA. -/
theorem print_counter_transmits_decimal_witness :
    TxLive hwSlow ∧ (List.replicate 12 0xAA).length = 12 ∧ 4294967295 < 2 ^ 32 ∧
    ∃ st', (∃ F, ∀ fuel, F ≤ fuel →
          SerialHello.print_counter hwSlow fuel uart0 (List.replicate 12 0xAA) 4294967295
            = some st') ∧
        tx st'.log = [52, 50, 57, 52, 57, 54, 55, 50, 57, 53] :=
  ⟨hwSlow_txLive, by decide, by decide,
    let ⟨st', hF, htx⟩ :=
      (print_counter_transmits_decimal hwSlow hwSlow_txLive uart0 (List.replicate 12 0xAA)
        (by decide) 4294967295 (by decide)).1
    ⟨st', hF, by simpa [uart0, tx, decimalBytes] using htx⟩⟩

/-! ## Echo loop -/

theorem uart_recv_char_spec (hw : Hw) (N : Nat) : ∀ (fuel : Nat) (st : Uart),
    (∀ j, j < N → hw.sr (st.polls + j) &&& USART_SR_RXNE = 0) →
    hw.sr (st.polls + N) &&& USART_SR_RXNE ≠ 0 → N < fuel →
    UartEcho.uart_recv_char hw fuel st
      = some (hw.dr st.rx % 256,
          { polls := st.polls + N + 1, rx := st.rx + 1,
            log := st.log ++ pollLog hw st N ++ [Event.readDR (hw.dr st.rx)] }) := by
  induction N with
  | zero =>
    intro fuel st _ hset hf
    obtain ⟨f, rfl⟩ : ∃ f, fuel = f + 1 := ⟨fuel - 1, by omega⟩
    simp only [Nat.add_zero] at hset
    simp [UartEcho.uart_recv_char, hset, pollLog, List.range_succ]
  | succ N ih =>
    intro fuel st hclear hset hf
    obtain ⟨f, rfl⟩ : ∃ f, fuel = f + 1 := ⟨fuel - 1, by omega⟩
    have h0 : hw.sr st.polls &&& USART_SR_RXNE = 0 := by simpa using hclear 0 (by omega)
    rw [UartEcho.uart_recv_char]
    simp only [h0, if_true]
    rw [ih f _ (fun j hj => by simpa [Nat.add_assoc, Nat.add_comm 1] using hclear (j + 1) (by omega))
      (by simpa [Nat.add_assoc, Nat.add_comm 1] using hset) (by omega)]
    rw [pollLog_succ]
    simp [Nat.add_assoc, Nat.add_comm 1]

theorem uart_recv_char_sound (hw : Hw) : ∀ (fuel : Nat) (st : Uart) (c : Nat) (st1 : Uart),
    UartEcho.uart_recv_char hw fuel st = some (c, st1) →
    ∃ N, (∀ j, j < N → hw.sr (st.polls + j) &&& USART_SR_RXNE = 0) ∧
      hw.sr (st.polls + N) &&& USART_SR_RXNE ≠ 0 ∧
      c = hw.dr st.rx % 256 ∧
      st1.log = st.log ++ pollLog hw st N ++ [Event.readDR (hw.dr st.rx)] := by
  intro fuel
  induction fuel with
  | zero => intro st c st1 h; simp [UartEcho.uart_recv_char] at h
  | succ f ih =>
    intro st c st1 h
    rw [UartEcho.uart_recv_char] at h
    by_cases h0 : hw.sr st.polls &&& USART_SR_RXNE = 0
    · simp only [h0, if_true] at h
      obtain ⟨N, hclear, hset, hc, hlog⟩ := ih _ c st1 h
      refine ⟨N + 1, ?_, ?_, hc, ?_⟩
      · intro j hj
        cases j with
        | zero => simpa using h0
        | succ j =>
          have := hclear j (by omega)
          simpa [Nat.add_assoc, Nat.add_comm 1] using this
      · simpa [Nat.add_assoc, Nat.add_comm 1] using hset
      · rw [hlog, pollLog_succ]; simp
    · simp only [h0, if_false, Option.some.injEq, Prod.mk.injEq] at h
      obtain ⟨hc, hst⟩ := h
      refine ⟨0, fun j hj => absurd hj (Nat.not_lt_zero j), by simpa using h0, hc.symm, ?_⟩
      rw [← hst]
      simp [pollLog, List.range_succ]

theorem uart_recv_char_live (hw : Hw) (h : RxLive hw) (st : Uart) :
    ∃ st', (∃ F, ∀ fuel, F ≤ fuel →
        UartEcho.uart_recv_char hw fuel st = some (hw.dr st.rx % 256, st')) ∧
      tx st'.log = tx st.log ∧ st'.rx = st.rx + 1 := by
  obtain ⟨N, hclear, hset⟩ := rx_wait hw h st.polls
  refine ⟨_, ⟨N + 1, fun fuel hf => uart_recv_char_spec hw N fuel st hclear hset (by omega)⟩,
    ?_, rfl⟩
  simp [tx_append, tx_pollLog, tx]

theorem main_loop_live (hw : Hw) (htx : TxLive hw) (hrx : RxLive hw) :
    ∀ (iters : Nat) (st : Uart),
    ∃ st', (∃ F, ∀ fuel, F ≤ fuel → UartEcho.main_loop hw fuel iters st = some st') ∧
      st'.rx = st.rx + iters ∧
      tx st'.log = tx st.log
        ++ echoed ((List.range iters).map fun j => hw.dr (st.rx + j) % 256) := by
  intro iters
  induction iters with
  | zero =>
    intro st
    exact ⟨st, ⟨0, fun fuel _ => rfl⟩, rfl, by simp [echoed]⟩
  | succ n ih =>
    intro st
    obtain ⟨st1, ⟨F1, hF1⟩, htx1, hrx1⟩ := uart_recv_char_live hw hrx st
    obtain ⟨st2, ⟨F2, hF2⟩, htx2, hrx2⟩ := uart_putc_live hw htx st1 (hw.dr st.rx % 256)
    have hrange : (List.range (n + 1)).map (fun j => hw.dr (st.rx + j) % 256)
        = (hw.dr st.rx % 256) :: (List.range n).map (fun j => hw.dr (st.rx + 1 + j) % 256) := by
      rw [List.range_succ_eq_map]
      simp [List.map_map, Function.comp_def, Nat.add_assoc, Nat.add_comm 1]
    by_cases h13 : hw.dr st.rx % 256 = 13
    · obtain ⟨st3, ⟨F3, hF3⟩, htx3, hrx3⟩ := uart_putc_live hw htx st2 10
      obtain ⟨st4, ⟨F4, hF4⟩, hrx4, htx4⟩ := ih st3
      refine ⟨st4, ⟨max (max F1 F2) (max F3 F4), fun fuel hf => ?_⟩, ?_, ?_⟩
      · have h1 := hF1 fuel (by omega)
        have h2 := hF2 fuel (by omega)
        have h3 := hF3 fuel (by omega)
        have h4 := hF4 fuel (by omega)
        rw [h13] at h2
        simp [UartEcho.main_loop, uart_send_char_eq_putc, h1, h2, h3, h4, h13]
      · rw [hrx4, hrx3, hrx2, hrx1]; omega
      · rw [htx4, htx3, htx2, htx1, hrange, hrx3, hrx2, hrx1]
        simp [echoed, h13]
    · obtain ⟨st4, ⟨F4, hF4⟩, hrx4, htx4⟩ := ih st2
      refine ⟨st4, ⟨max (max F1 F2) F4, fun fuel hf => ?_⟩, ?_, ?_⟩
      · have h1 := hF1 fuel (by omega)
        have h2 := hF2 fuel (by omega)
        have h4 := hF4 fuel (by omega)
        simp [UartEcho.main_loop, uart_send_char_eq_putc, h1, h2, h4, h13]
      · rw [hrx4, hrx2, hrx1]; omega
      · rw [htx4, htx2, htx1, hrange, hrx2, hrx1]
        simp [echoed, h13]

/-- Claim C10. Against a status register that reports TXE and RXNE again and again, if the
data register delivers the bytes `bs` to the successive calls of `uart_recv_char`, then the
echo loop completes `bs.length` passes and has then transmitted, after whatever was
transmitted before (the banners), exactly the bytes of `bs` in order with one line feed
inserted immediately after every carriage return; and whenever `uart_recv_char` returns a
byte, its last two accesses are a read of the status register with RXNE set and the read of
the data register that yields the byte, every earlier status read having shown RXNE
clear. -/
theorem echo_loop_transmits_echoed (hw : Hw) (htx : TxLive hw) (hrx : RxLive hw)
    (st : Uart) (bs : List Nat)
    (hbs : ∀ j, j < bs.length → bs[j]? = some (hw.dr (st.rx + j) % 256)) :
    (∃ st', (∃ F, ∀ fuel, F ≤ fuel →
          UartEcho.main_loop hw fuel bs.length st = some st') ∧
        st'.rx = st.rx + bs.length ∧
        tx st'.log = tx st.log ++ echoed bs) ∧
    (∀ fuel st0 c st1, UartEcho.uart_recv_char hw fuel st0 = some (c, st1) →
      ∃ N, (∀ j, j < N → hw.sr (st0.polls + j) &&& USART_SR_RXNE = 0) ∧
        hw.sr (st0.polls + N) &&& USART_SR_RXNE ≠ 0 ∧
        c = hw.dr st0.rx % 256 ∧
        st1.log = st0.log ++ pollLog hw st0 N ++ [Event.readDR (hw.dr st0.rx)]) := by
  refine ⟨?_, uart_recv_char_sound hw⟩
  obtain ⟨st', hF, hrx', htx'⟩ := main_loop_live hw htx hrx bs.length st
  refine ⟨st', hF, hrx', ?_⟩
  have hmap : (List.range bs.length).map (fun j => hw.dr (st.rx + j) % 256) = bs := by
    apply List.ext_getElem?
    intro j
    by_cases hj : j < bs.length
    · rw [hbs j hj]
      simp [List.getElem?_map, List.getElem?_range hj]
    · have h1 : bs[j]? = none := List.getElem?_eq_none (not_lt.mp hj)
      rw [h1]
      simp [List.getElem?_eq_none_iff]
      omega
  rw [htx', hmap]

/-- Witness for claim C10: the slow USART delivers a carriage return and then the byte 14;
two passes of the echo loop transmit 13, 10, 14. -/
theorem echo_loop_transmits_echoed_witness :
    TxLive hwSlow ∧ RxLive hwSlow ∧
    (∀ j, j < [13, 14].length → [13, 14][j]? = some (hwSlow.dr (uart0.rx + j) % 256)) ∧
    ∃ st', (∃ F, ∀ fuel, F ≤ fuel →
          UartEcho.main_loop hwSlow fuel 2 uart0 = some st') ∧
        st'.rx = 2 ∧ tx st'.log = [13, 10, 14] :=
  ⟨hwSlow_txLive, hwSlow_rxLive, by decide,
    let ⟨st', hF, hrx, htx⟩ :=
      (echo_loop_transmits_echoed hwSlow hwSlow_txLive hwSlow_rxLive uart0 [13, 14]
        (by decide)).1
    ⟨st', hF, by simpa [uart0] using hrx, by simpa [uart0, echoed] using htx⟩⟩

/-! ## Utility library -/

/-- Claim C11. For all `value`, `min`, `max` with `min ≤ max`, the result of `utils_clamp`
lies between `min` and `max`, is `value` when `value` lies between them, is `min` when
`value < min` and is `max` when `value > max`. -/
theorem utils_clamp_clamps (value min max : Nat) (h : min ≤ max) :
    min ≤ utils_clamp value min max ∧ utils_clamp value min max ≤ max ∧
    (min ≤ value → value ≤ max → utils_clamp value min max = value) ∧
    (value < min → utils_clamp value min max = min) ∧
    (value > max → utils_clamp value min max = max) := by
  unfold utils_clamp
  refine ⟨?_, ?_, ?_, ?_, ?_⟩
  · split_ifs <;> omega
  · split_ifs <;> omega
  · intro h1 h2; split_ifs <;> omega
  · intro h1; rw [if_pos h1]
  · intro h1; split_ifs <;> omega

/-- Witness for claim C11: clamping 7, 2 and 1 between 2 and 5. -/
theorem utils_clamp_clamps_witness :
    2 ≤ 5 ∧ utils_clamp 7 2 5 = 5 ∧ utils_clamp 2 2 5 = 2 ∧ utils_clamp 1 2 5 = 2 :=
  ⟨by decide, (utils_clamp_clamps 7 2 5 (by decide)).2.2.2.2 (by decide),
    (utils_clamp_clamps 2 2 5 (by decide)).2.2.1 (by decide) (by decide),
    (utils_clamp_clamps 1 2 5 (by decide)).2.2.2.1 (by decide)⟩

/-- Counterexample to claim C12: at 65536 `utils_square` returns 0, not 4294967296. -/
theorem utils_square_wraps_at_65536 :
    utils_square 65536 = 0 ∧ utils_square 65536 ≠ 65536 * 65536 := by
  decide

/-- Claim C12, amended. For every `x`, `utils_square` returns `x * x` reduced modulo
`2 ^ 32`, and this is the integer `x * x` exactly when `x < 65536`. -/
theorem utils_square_is_square_mod (x : Nat) :
    utils_square x = (x * x) % 2 ^ 32 ∧ utils_square x < 2 ^ 32 ∧
    (utils_square x = x * x ↔ x < 65536) := by
  refine ⟨rfl, Nat.mod_lt _ (by norm_num), ?_⟩
  unfold utils_square
  constructor
  · intro h
    by_contra hx
    have h1 : 65536 * 65536 ≤ x * x := Nat.mul_le_mul (by omega) (by omega)
    have h2 : (x * x) % 2 ^ 32 < 2 ^ 32 := Nat.mod_lt _ (by norm_num)
    omega
  · intro hx
    have h1 : x * x ≤ 65535 * 65535 := Nat.mul_le_mul (by omega) (by omega)
    exact Nat.mod_eq_of_lt (by omega)

/-! ## Busy-wait -/

theorem utils_delay_loop_eq : ∀ (c nops : Nat) (tests : List Nat),
    utils_delay_loop c nops tests
      = { count := 0xFFFFFFFF, nops := nops + c,
          tests := tests ++ (List.range (c + 1)).reverse } := by
  intro c
  induction c with
  | zero => intro nops tests; simp [utils_delay_loop, List.range_succ]
  | succ c ih =>
    intro nops tests
    rw [utils_delay_loop, ih, List.range_succ (c + 1)]
    simp [Nat.add_assoc, Nat.add_comm 1]

theorem hello_delay_loop_eq : ∀ (c nops : Nat) (tests : List Nat),
    SerialHello.delay_loop c nops tests
      = { count := 0xFFFFFFFF, nops := nops + c,
          tests := tests ++ (List.range (c + 1)).reverse } := by
  intro c
  induction c with
  | zero => intro nops tests; simp [SerialHello.delay_loop, List.range_succ]
  | succ c ih =>
    intro nops tests
    rw [SerialHello.delay_loop, ih, List.range_succ (c + 1)]
    simp [Nat.add_assoc, Nat.add_comm 1]

theorem range_reverse_getLast (c : Nat) : (List.range (c + 1)).reverse.getLast? = some 0 := by
  rw [List.getLast?_reverse, List.range_succ_eq_map]
  rfl

/-- Claim C13. For every `count`, `utils_delay` and the `delay` of the serial-hello example
return (the model is a total function) after running the body exactly `count` times; the
loop tests read the counter values `count`, `count - 1`, ..., 0 in this order, so the
counter is decremented down to zero, and the test that reads zero ends the loop, its
post-decrement leaving the dead counter wrapped to `2 ^ 32 - 1`; with `count = 0` the body
does not run. -/
theorem busy_wait_runs_count_times (count : Nat) :
    (utils_delay count).nops = count ∧
    (utils_delay count).tests = (List.range (count + 1)).reverse ∧
    (utils_delay count).tests.getLast? = some 0 ∧
    (utils_delay count).tests.length = count + 1 ∧
    (utils_delay count).count = 0xFFFFFFFF ∧
    (utils_delay 0).nops = 0 ∧
    (SerialHello.delay count).nops = count ∧
    (SerialHello.delay count).tests = (List.range (count + 1)).reverse ∧
    (SerialHello.delay count).tests.getLast? = some 0 ∧
    (SerialHello.delay count).tests.length = count + 1 ∧
    (SerialHello.delay count).count = 0xFFFFFFFF ∧
    (SerialHello.delay 0).nops = 0 := by
  have hu : utils_delay count
      = { count := 0xFFFFFFFF, nops := count, tests := (List.range (count + 1)).reverse } := by
    rw [utils_delay, utils_delay_loop_eq]; simp
  have hs : SerialHello.delay count
      = { count := 0xFFFFFFFF, nops := count, tests := (List.range (count + 1)).reverse } := by
    rw [SerialHello.delay, hello_delay_loop_eq]; simp
  rw [hu, hs]
  refine ⟨rfl, rfl, range_reverse_getLast count, by simp, rfl, rfl, rfl, rfl,
    range_reverse_getLast count, by simp, rfl, rfl⟩

/-! ## Decimal conversion buffer -/

theorem decimal_loop_log_fst (n : Nat) : ∀ (buf : List Nat) (i : Int) (ws : List Int),
    (SerialHello.decimal_loop_log buf i n ws).1 = SerialHello.decimal_loop buf i n := by
  induction n using Nat.strong_induction_on with
  | _ n ih =>
    intro buf i ws
    rw [SerialHello.decimal_loop_log, SerialHello.decimal_loop]
    by_cases hg : n / 10 > 0 ∧ i - 1 ≥ 0
    · rw [if_pos hg, if_pos hg]
      exact ih (n / 10) (by omega) _ _ _
    · rw [if_neg hg, if_neg hg]

theorem decimal_loop_log_writes : ∀ (i n : Nat) (buf : List Nat) (ws : List Int),
    n < 10 ^ (i + 1) →
    (SerialHello.decimal_loop_log buf (i : Int) n ws).2
      = ws ++ (List.range (decimalBytes n).length).map (fun (k : Nat) => (i : Int) - (k : Int)) := by
  intro i
  induction i with
  | zero =>
    intro n buf ws hn
    have h10 : n < 10 := by simpa using hn
    have hg : ¬ (n / 10 > 0 ∧ ((0 : Nat) : Int) - 1 ≥ 0) := by omega
    rw [SerialHello.decimal_loop_log, if_neg hg]
    simp [decimalBytes_lt10 n h10, List.range_succ]
  | succ k ih =>
    intro n buf ws hn
    by_cases h10 : n < 10
    · have hg : ¬ (n / 10 > 0 ∧ ((k + 1 : Nat) : Int) - 1 ≥ 0) := by omega
      rw [SerialHello.decimal_loop_log, if_neg hg]
      simp [decimalBytes_lt10 n h10, List.range_succ]
    · have hg : n / 10 > 0 ∧ ((k + 1 : Nat) : Int) - 1 ≥ 0 := by omega
      have hi : ((k + 1 : Nat) : Int) - 1 = (k : Int) := by omega
      have hn1 : n / 10 < 10 ^ (k + 1) := by
        rw [Nat.div_lt_iff_lt_mul (by norm_num)]
        calc n < 10 ^ (k + 1 + 1) := hn
          _ = 10 ^ (k + 1) * 10 := by ring
      rw [SerialHello.decimal_loop_log, if_pos hg, hi]
      rw [ih (n / 10) _ _ hn1, decimalBytes_ge10 n (by omega)]
      simp only [List.length_append, List.length_singleton, List.append_assoc,
        List.singleton_append]
      rw [List.range_succ_eq_map]
      simp only [List.map_cons, List.map_map, Function.comp_def]
      congr 2
      · apply List.map_congr_left
        intro a _
        push_cast
        omega

/-- Claim C14. For every 32-bit `n` and whatever the 12 bytes of `buf` held before, the
conversion loop makes its stores at the indices 10, 9, ... down to `11 - d` for the `d`
digits of `n`, `1 ≤ d ≤ 10`: every store index lies between 1 and 10 and the cursor never
goes below 0. At the exit `n` is 0 while `i ≥ 0` still holds, so the loop ends because the
number is used up; the start index `i + 1` lies between 1 and 10, every index from there to
10 was stored by the loop, the bytes there are the digits, none of them zero, and index 11
holds the terminator. -/
theorem decimal_buffer_in_bounds (buf0 : List Nat) (hbuf : buf0.length = 12) (n : Nat)
    (hn : n < 2 ^ 32) :
    (SerialHello.decimal_loop_log (buf0.set 11 0) 10 n []).1
      = SerialHello.decimal_loop (buf0.set 11 0) 10 n ∧
    (SerialHello.decimal_loop_log (buf0.set 11 0) 10 n []).2
      = (List.range (decimalBytes n).length).map (fun (k : Nat) => (10 : Int) - (k : Int)) ∧
    (1 ≤ (decimalBytes n).length ∧ (decimalBytes n).length ≤ 10) ∧
    (∀ w, w ∈ (SerialHello.decimal_loop_log (buf0.set 11 0) 10 n []).2 →
      1 ≤ w ∧ w ≤ 10 ∧ 0 ≤ w - 1) ∧
    (SerialHello.decimal_loop (buf0.set 11 0) 10 n).2.2 = 0 ∧
    0 ≤ (SerialHello.decimal_loop (buf0.set 11 0) 10 n).2.1 ∧
    (1 ≤ (SerialHello.decimal_loop (buf0.set 11 0) 10 n).2.1 + 1 ∧
      (SerialHello.decimal_loop (buf0.set 11 0) 10 n).2.1 + 1 ≤ 10) ∧
    (∀ k : Int, (SerialHello.decimal_loop (buf0.set 11 0) 10 n).2.1 + 1 ≤ k → k ≤ 10 →
      k ∈ (SerialHello.decimal_loop_log (buf0.set 11 0) 10 n []).2) ∧
    (SerialHello.decimal_loop (buf0.set 11 0) 10 n).1.length = 12 ∧
    (SerialHello.decimal_loop (buf0.set 11 0) 10 n).1[11]? = some 0 ∧
    (SerialHello.decimal_loop (buf0.set 11 0) 10 n).1.drop
        ((SerialHello.decimal_loop (buf0.set 11 0) 10 n).2.1 + 1).toNat
      = decimalBytes n ++ [0] ∧
    (∀ c, c ∈ decimalBytes n → c ≠ 0) := by
  have hlen : (buf0.set 11 0).length = 12 := by rw [List.length_set]; exact hbuf
  have hn10 : n < 10 ^ (9 + 1) := lt_trans hn (by norm_num)
  have hn11 : n < 10 ^ (10 + 1) := lt_trans hn (by norm_num)
  have hL1 := decimalBytes_length_pos n
  have hL2 := decimalBytes_length_le 9 n hn10
  have hw := decimal_loop_log_writes 10 n (buf0.set 11 0) [] hn11
  simp only [Nat.cast_ofNat, List.nil_append] at hw
  have he := decimal_loop_eq 10 n (buf0.set 11 0) (by omega) hn11
  simp only [Nat.cast_ofNat] at he
  have harg := print_counter_arg buf0 hbuf n hn
  simp only at harg
  have hidx : ((SerialHello.decimal_loop (buf0.set 11 0) 10 n).2.1 + 1).toNat
      = 11 - (decimalBytes n).length := by rw [he]; simp only; omega
  refine ⟨decimal_loop_log_fst n _ _ _, hw, ⟨hL1, hL2⟩, ?_, by rw [he], by rw [he]; simp only; omega,
    by rw [he]; simp only; omega, ?_, ?_, ?_, harg, ?_⟩
  · intro w hmem
    rw [hw, List.mem_map] at hmem
    obtain ⟨k, hk, rfl⟩ := hmem
    have := List.mem_range.mp hk
    omega
  · intro k h1 h2
    rw [he] at h1
    simp only at h1
    rw [hw, List.mem_map]
    exact ⟨(10 - k).toNat, List.mem_range.mpr (by omega), by omega⟩
  · rw [he]
    simp only [List.length_append, List.length_take, List.length_drop, hlen]
    omega
  · have h := congrArg (fun l => l[(decimalBytes n).length]?) harg
    simp only [List.getElem?_drop, hidx] at h
    have h11 : 11 - (decimalBytes n).length + (decimalBytes n).length = 11 := by omega
    rw [h11] at h
    rw [h]
    simp
  · intro c hc
    have := mem_decimalBytes n c hc
    omega

/-- Witness for claim C14: the largest 32-bit value has ten digits, stored at the indices
10 down to 1 of a buffer that held the byte 0xAA everywhere. -/
theorem decimal_buffer_in_bounds_witness :
    (List.replicate 12 0xAA).length = 12 ∧ 4294967295 < 2 ^ 32 ∧
    (SerialHello.decimal_loop_log ((List.replicate 12 0xAA).set 11 0) 10 4294967295 []).2
      = [10, 9, 8, 7, 6, 5, 4, 3, 2, 1] :=
  ⟨by decide, by decide,
    ((decimal_buffer_in_bounds (List.replicate 12 0xAA) (by decide) 4294967295
      (by decide)).2.1).trans (by simp [decimalBytes, List.range_succ])⟩

/-! ## Clock enable before configuration -/

theorem or_and_sub (x m k : Nat) (h : m &&& k = k) : (x ||| m) &&& k = k := by
  apply Nat.eq_of_testBit_eq
  intro i
  have hi := congrArg (fun t => Nat.testBit t i) h
  simp only [Nat.testBit_and] at hi
  simp only [Nat.testBit_and, Nat.testBit_or]
  cases hx : x.testBit i <;> cases hm : m.testBit i <;> cases hk : k.testBit i <;> simp_all

theorem iopcen_on (x : Nat) : (x ||| RCC_APB2ENR_IOPCEN) &&& RCC_APB2ENR_IOPCEN ≠ 0 := by
  rw [or_and_mask]; decide

theorem iopaen_on (x : Nat) :
    (x ||| (RCC_APB2ENR_IOPAEN ||| RCC_APB2ENR_USART1EN)) &&& RCC_APB2ENR_IOPAEN ≠ 0 := by
  rw [or_and_sub _ _ _ (by decide)]; decide

theorem usart1en_on (x : Nat) :
    (x ||| (RCC_APB2ENR_IOPAEN ||| RCC_APB2ENR_USART1EN)) &&& RCC_APB2ENR_USART1EN ≠ 0 := by
  rw [or_and_sub _ _ _ (by decide)]; decide

theorem clockPrecedes_of_head (c : Stmt) (rest : List Stmt) (hc : c.reg = Reg.RCC_APB2ENR)
    (h : ∀ s, s ∈ rest → ∀ m, gate s.reg = some m → ∀ v, c.upd v &&& m = m) :
    clockPrecedes (c :: rest) := by
  intro j s m hs hg
  cases j with
  | zero =>
    simp only [List.getElem?_cons_zero, Option.some.injEq] at hs
    subst hs
    rw [hc] at hg
    simp [gate] at hg
  | succ j =>
    simp only [List.getElem?_cons_succ] at hs
    exact ⟨0, c, Nat.succ_pos j, List.getElem?_cons_zero, hc, h s (List.getElem?_mem hs) m hg⟩

theorem blink_gated_eq (r : Regs) :
    runGated Blink.main_startup_stmts r = Blink.main_startup r := by
  simp [Blink.main_startup, Blink.main_startup_stmts, Blink.clock_stmts, Blink.pc13_stmts,
    runGated, run, Stmt.execGated, gate, Stmt.exec, Regs.read, Regs.write, iopcen_on]

theorem freertos_gated_eq (r : Regs) :
    runGated FreeRTOS.main_startup_stmts r = FreeRTOS.main_startup r := by
  simp [FreeRTOS.main_startup, FreeRTOS.main_startup_stmts, FreeRTOS.clock_stmts,
    FreeRTOS.pc13_stmts, runGated, run, Stmt.execGated, gate, Stmt.exec, Regs.read, Regs.write,
    iopcen_on]

theorem hello_gated_eq (r : Regs) :
    runGated SerialHello.uart_init_stmts r = SerialHello.uart_init r := by
  simp [SerialHello.uart_init, SerialHello.uart_init_stmts, SerialHello.clock_stmts,
    SerialHello.pa9_stmts, SerialHello.pa10_stmts, SerialHello.usart_stmts, runGated, run,
    Stmt.execGated, gate, Stmt.exec, Regs.read, Regs.write, iopaen_on, usart1en_on]

theorem echo_gated_eq (r : Regs) :
    runGated UartEcho.uart_init_stmts r = UartEcho.uart_init r := by
  simp [UartEcho.uart_init, UartEcho.uart_init_stmts, UartEcho.clock_stmts,
    UartEcho.pa9_stmts, UartEcho.pa10_stmts, UartEcho.usart_stmts, runGated, run,
    Stmt.execGated, gate, Stmt.exec, Regs.read, Regs.write, iopaen_on, usart1en_on]

theorem hello_init_usart (r : Regs) :
    (SerialHello.uart_init r).USART1_BRR = 69 ∧
    (SerialHello.uart_init r).USART1_CR1 = USART_CR1_TE ||| USART_CR1_RE ||| USART_CR1_UE := by
  simp [SerialHello.uart_init, SerialHello.uart_init_stmts, SerialHello.clock_stmts,
    SerialHello.pa9_stmts, SerialHello.pa10_stmts, SerialHello.usart_stmts, run, Stmt.exec,
    Regs.read, Regs.write]

theorem echo_init_usart (r : Regs) :
    (UartEcho.uart_init r).USART1_BRR = 69 ∧
    (UartEcho.uart_init r).USART1_CR1 = USART_CR1_TE ||| USART_CR1_RE ||| USART_CR1_UE := by
  simp [UartEcho.uart_init, UartEcho.uart_init_stmts, UartEcho.clock_stmts,
    UartEcho.pa9_stmts, UartEcho.pa10_stmts, UartEcho.usart_stmts, run, Stmt.exec,
    Regs.read, Regs.write]

theorem blink_clockPrecedes :
    clockPrecedes (Blink.main_startup_stmts ++ Blink.main_loop_stmts) := by
  have e : Blink.main_startup_stmts ++ Blink.main_loop_stmts
      = ⟨.RCC_APB2ENR, fun v => v ||| RCC_APB2ENR_IOPCEN⟩
          :: (Blink.pc13_stmts ++ Blink.main_loop_stmts) := rfl
  rw [e]
  apply clockPrecedes_of_head _ _ rfl
  intro s hs m hg v
  simp only [Blink.pc13_stmts, Blink.main_loop_stmts, List.nil_append, List.cons_append,
    List.mem_cons, List.mem_singleton, List.not_mem_nil, or_false] at hs
  rcases hs with rfl | rfl | rfl <;>
    · simp only [gate, Option.some.injEq] at hg
      subst hg
      exact or_and_mask v _

theorem freertos_clockPrecedes :
    clockPrecedes (FreeRTOS.main_startup_stmts ++ FreeRTOS.vTask1_stmts) := by
  have e : FreeRTOS.main_startup_stmts ++ FreeRTOS.vTask1_stmts
      = ⟨.RCC_APB2ENR, fun v => v ||| RCC_APB2ENR_IOPCEN⟩
          :: (FreeRTOS.pc13_stmts ++ FreeRTOS.vTask1_stmts) := rfl
  rw [e]
  apply clockPrecedes_of_head _ _ rfl
  intro s hs m hg v
  simp only [FreeRTOS.pc13_stmts, FreeRTOS.vTask1_stmts, List.nil_append, List.cons_append,
    List.mem_cons, List.mem_singleton, List.not_mem_nil, or_false] at hs
  rcases hs with rfl | rfl | rfl <;>
    · simp only [gate, Option.some.injEq] at hg
      subst hg
      exact or_and_mask v _

theorem hello_clockPrecedes : clockPrecedes SerialHello.uart_init_stmts := by
  have e : SerialHello.uart_init_stmts
      = ⟨.RCC_APB2ENR, fun v => v ||| (RCC_APB2ENR_IOPAEN ||| RCC_APB2ENR_USART1EN)⟩
          :: (SerialHello.pa9_stmts ++ SerialHello.pa10_stmts ++ SerialHello.usart_stmts) := rfl
  rw [e]
  apply clockPrecedes_of_head _ _ rfl
  intro s hs m hg v
  simp only [SerialHello.pa9_stmts, SerialHello.pa10_stmts, SerialHello.usart_stmts,
    List.nil_append, List.cons_append, List.mem_cons, List.mem_singleton, List.not_mem_nil,
    or_false] at hs
  rcases hs with rfl | rfl | rfl | rfl | rfl | rfl <;>
    · simp only [gate, Option.some.injEq] at hg
      subst hg
      exact or_and_sub v _ _ (by decide)

theorem echo_clockPrecedes : clockPrecedes UartEcho.uart_init_stmts := by
  have e : UartEcho.uart_init_stmts
      = ⟨.RCC_APB2ENR, fun v => v ||| (RCC_APB2ENR_IOPAEN ||| RCC_APB2ENR_USART1EN)⟩
          :: (UartEcho.pa9_stmts ++ UartEcho.pa10_stmts ++ UartEcho.usart_stmts) := rfl
  rw [e]
  apply clockPrecedes_of_head _ _ rfl
  intro s hs m hg v
  simp only [UartEcho.pa9_stmts, UartEcho.pa10_stmts, UartEcho.usart_stmts,
    List.nil_append, List.cons_append, List.mem_cons, List.mem_singleton, List.not_mem_nil,
    or_false] at hs
  rcases hs with rfl | rfl | rfl | rfl | rfl | rfl <;>
    · simp only [gate, Option.some.injEq] at hg
      subst hg
      exact or_and_sub v _ _ (by decide)

/-- Claim C15. In the statement sequence of every example (blink and FreeRTOS start-up
followed by the toggle of their loop, and `uart_init` of both UART examples) a statement
on APB2ENR that sets the clock bit of the peripheral comes before every write to a register
of that peripheral. Hence on gated hardware, where a write to an unclocked peripheral is
dropped, the start-up code has from every register state (the one with all clock bits
clear included) the same effect as on ungated registers: PC13 reads 0x2, PA9 reads 0xB,
PA10 reads 0x4, BRR is 69 and CR1 is TE | RE | UE. The order matters: with all clocks off,
the configuration statements alone change nothing. -/
theorem clock_enabled_before_gated_writes (r : Regs) :
    clockPrecedes (Blink.main_startup_stmts ++ Blink.main_loop_stmts) ∧
    clockPrecedes (FreeRTOS.main_startup_stmts ++ FreeRTOS.vTask1_stmts) ∧
    clockPrecedes SerialHello.uart_init_stmts ∧
    clockPrecedes UartEcho.uart_init_stmts ∧
    (runGated Blink.main_startup_stmts r = Blink.main_startup r ∧
      pinField (runGated Blink.main_startup_stmts r).GPIOC_CRH 13 = 0x2) ∧
    (runGated FreeRTOS.main_startup_stmts r = FreeRTOS.main_startup r ∧
      pinField (runGated FreeRTOS.main_startup_stmts r).GPIOC_CRH 13 = 0x2) ∧
    (runGated SerialHello.uart_init_stmts r = SerialHello.uart_init r ∧
      pinField (runGated SerialHello.uart_init_stmts r).GPIOA_CRH 9 = 0xB ∧
      pinField (runGated SerialHello.uart_init_stmts r).GPIOA_CRH 10 = 0x4 ∧
      (runGated SerialHello.uart_init_stmts r).USART1_BRR = 69 ∧
      (runGated SerialHello.uart_init_stmts r).USART1_CR1
        = USART_CR1_TE ||| USART_CR1_RE ||| USART_CR1_UE) ∧
    (runGated UartEcho.uart_init_stmts r = UartEcho.uart_init r ∧
      pinField (runGated UartEcho.uart_init_stmts r).GPIOA_CRH 9 = 0xB ∧
      pinField (runGated UartEcho.uart_init_stmts r).GPIOA_CRH 10 = 0x4 ∧
      (runGated UartEcho.uart_init_stmts r).USART1_BRR = 69 ∧
      (runGated UartEcho.uart_init_stmts r).USART1_CR1
        = USART_CR1_TE ||| USART_CR1_RE ||| USART_CR1_UE) ∧
    (allZero.RCC_APB2ENR = 0 ∧
      runGated Blink.pc13_stmts allZero = allZero ∧
      runGated FreeRTOS.pc13_stmts allZero = allZero ∧
      runGated (SerialHello.pa9_stmts ++ SerialHello.pa10_stmts ++ SerialHello.usart_stmts)
        allZero = allZero ∧
      runGated (UartEcho.pa9_stmts ++ UartEcho.pa10_stmts ++ UartEcho.usart_stmts)
        allZero = allZero) := by
  refine ⟨blink_clockPrecedes, freertos_clockPrecedes, hello_clockPrecedes, echo_clockPrecedes,
    ⟨blink_gated_eq r, ?_⟩, ⟨freertos_gated_eq r, ?_⟩,
    ⟨hello_gated_eq r, ?_, ?_, ?_, ?_⟩, ⟨echo_gated_eq r, ?_, ?_, ?_, ?_⟩,
    ⟨rfl, by decide, by decide, by decide, by decide⟩⟩
  · rw [blink_gated_eq, blink_startup_crh]; exact pc13_field _
  · rw [freertos_gated_eq, freertos_startup_crh]; exact pc13_field _
  · rw [hello_gated_eq, hello_init_crh]; exact pa9_field _
  · rw [hello_gated_eq, hello_init_crh]; exact pa10_field _
  · rw [hello_gated_eq]; exact (hello_init_usart r).1
  · rw [hello_gated_eq]; exact (hello_init_usart r).2
  · rw [echo_gated_eq, echo_init_crh]; exact pa9_field _
  · rw [echo_gated_eq, echo_init_crh]; exact pa10_field _
  · rw [echo_gated_eq]; exact (echo_init_usart r).1
  · rw [echo_gated_eq]; exact (echo_init_usart r).2

/-! ## `uart_init`: control register, repetition, and the two examples -/

theorem crh_config_idem (x : Nat) :
    ((((((((x &&& not32 (0xF <<< 4)) ||| (0xB <<< 4)) &&& not32 (0xF <<< 8)) ||| (0x4 <<< 8))
        &&& not32 (0xF <<< 4)) ||| (0xB <<< 4)) &&& not32 (0xF <<< 8)) ||| (0x4 <<< 8))
      = ((((x &&& not32 (0xF <<< 4)) ||| (0xB <<< 4)) &&& not32 (0xF <<< 8)) ||| (0x4 <<< 8)) := by
  apply Nat.eq_of_testBit_eq
  intro i
  simp only [Nat.testBit_or, Nat.testBit_and]
  by_cases h : i < 32
  · interval_cases i <;> simp [Nat.testBit, not32]
  · have h1 : (not32 (0xF <<< 4)).testBit i = false :=
      testBit_of_ge32 (by decide) (not_lt.mp h)
    have h2 : (not32 (0xF <<< 8)).testBit i = false :=
      testBit_of_ge32 (by decide) (not_lt.mp h)
    have h3 : Nat.testBit (0xB <<< 4) i = false := testBit_of_ge32 (by decide) (not_lt.mp h)
    have h4 : Nat.testBit (0x4 <<< 8) i = false := testBit_of_ge32 (by decide) (not_lt.mp h)
    simp only [h1, h2, h3, h4, Bool.and_false, Bool.or_false]

theorem hello_init_eq (r : Regs) :
    SerialHello.uart_init r
      = { RCC_APB2ENR := r.RCC_APB2ENR ||| (RCC_APB2ENR_IOPAEN ||| RCC_APB2ENR_USART1EN),
          GPIOA_CRH := ((((r.GPIOA_CRH &&& not32 (0xF <<< 4)) ||| (0xB <<< 4))
            &&& not32 (0xF <<< 8)) ||| (0x4 <<< 8)),
          GPIOC_CRH := r.GPIOC_CRH, GPIOC_ODR := r.GPIOC_ODR, USART1_BRR := 69,
          USART1_CR1 := USART_CR1_TE ||| USART_CR1_RE ||| USART_CR1_UE } := by
  simp [SerialHello.uart_init, SerialHello.uart_init_stmts, SerialHello.clock_stmts,
    SerialHello.pa9_stmts, SerialHello.pa10_stmts, SerialHello.usart_stmts, run, Stmt.exec,
    Regs.read, Regs.write]

theorem echo_init_eq (r : Regs) :
    UartEcho.uart_init r
      = { RCC_APB2ENR := r.RCC_APB2ENR ||| (RCC_APB2ENR_IOPAEN ||| RCC_APB2ENR_USART1EN),
          GPIOA_CRH := ((((r.GPIOA_CRH &&& not32 (0xF <<< 4)) ||| (0xB <<< 4))
            &&& not32 (0xF <<< 8)) ||| (0x4 <<< 8)),
          GPIOC_CRH := r.GPIOC_CRH, GPIOC_ODR := r.GPIOC_ODR, USART1_BRR := 69,
          USART1_CR1 := USART_CR1_TE ||| USART_CR1_RE ||| USART_CR1_UE } := by
  simp [UartEcho.uart_init, UartEcho.uart_init_stmts, UartEcho.clock_stmts,
    UartEcho.pa9_stmts, UartEcho.pa10_stmts, UartEcho.usart_stmts, run, Stmt.exec,
    Regs.read, Regs.write]

theorem cr1_mask_bits (i : Nat) :
    (USART_CR1_TE ||| USART_CR1_RE ||| USART_CR1_UE).testBit i = true
      ↔ i = 2 ∨ i = 3 ∨ i = 13 := by
  have ht : USART_CR1_TE = 2 ^ 3 := by decide
  have hr : USART_CR1_RE = 2 ^ 2 := by decide
  have hu : USART_CR1_UE = 2 ^ 13 := by decide
  rw [Nat.testBit_or, Nat.testBit_or, ht, hr, hu, Nat.testBit_two_pow, Nat.testBit_two_pow,
    Nat.testBit_two_pow]
  simp only [Bool.or_eq_true, decide_eq_true_eq]
  omega

/-- Claim C16. For every initial register state, after `uart_init` of either UART example
CR1 equals TE | RE | UE, that is 0x200C: bits 2, 3 and 13 are set and every other bit is
clear, whatever CR1 held before; and a second call of `uart_init` leaves all the registers
(APB2ENR, CRH, BRR, CR1 and the untouched ones) as the first call left them. -/
theorem uart_init_cr1_exact_and_idempotent (r : Regs) :
    (SerialHello.uart_init r).USART1_CR1 = USART_CR1_TE ||| USART_CR1_RE ||| USART_CR1_UE ∧
    (UartEcho.uart_init r).USART1_CR1 = USART_CR1_TE ||| USART_CR1_RE ||| USART_CR1_UE ∧
    USART_CR1_TE ||| USART_CR1_RE ||| USART_CR1_UE = 0x200C ∧
    (∀ i, (SerialHello.uart_init r).USART1_CR1.testBit i = true ↔ i = 2 ∨ i = 3 ∨ i = 13) ∧
    (∀ i, (UartEcho.uart_init r).USART1_CR1.testBit i = true ↔ i = 2 ∨ i = 3 ∨ i = 13) ∧
    SerialHello.uart_init (SerialHello.uart_init r) = SerialHello.uart_init r ∧
    UartEcho.uart_init (UartEcho.uart_init r) = UartEcho.uart_init r := by
  refine ⟨(hello_init_usart r).2, (echo_init_usart r).2, by decide, ?_, ?_, ?_, ?_⟩
  · intro i; rw [(hello_init_usart r).2]; exact cr1_mask_bits i
  · intro i; rw [(echo_init_usart r).2]; exact cr1_mask_bits i
  · rw [hello_init_eq (SerialHello.uart_init r), hello_init_eq r]
    simp only [or_idem, crh_config_idem]
  · rw [echo_init_eq (UartEcho.uart_init r), echo_init_eq r]
    simp only [or_idem, crh_config_idem]

/-- Claim C17. For every initial register state the `uart_init` of the serial-hello example
and the `uart_init` of the UART echo example produce the same register state, hence the
same APB2ENR, GPIOA CRH, USART1 BRR and USART1 CR1; the literals 69 and 0x45 they store in
BRR are the same number. -/
theorem uart_init_examples_agree (r : Regs) :
    SerialHello.uart_init r = UartEcho.uart_init r ∧
    (SerialHello.uart_init r).RCC_APB2ENR = (UartEcho.uart_init r).RCC_APB2ENR ∧
    (SerialHello.uart_init r).GPIOA_CRH = (UartEcho.uart_init r).GPIOA_CRH ∧
    (SerialHello.uart_init r).USART1_BRR = (UartEcho.uart_init r).USART1_BRR ∧
    (SerialHello.uart_init r).USART1_CR1 = (UartEcho.uart_init r).USART1_CR1 := by
  have h : SerialHello.uart_init r = UartEcho.uart_init r := by
    rw [hello_init_eq, echo_init_eq]
  exact ⟨h, by rw [h], by rw [h], by rw [h], by rw [h]⟩
